import Mathlib

/-!
Verification of the convolutional-RNN / TNN cell library (src/tnn/convrnn.py).

The tensor engine (TensorFlow) is an external collaborator of the core under
verification; we embed it shallowly: a tensor is a shape (a list of optionally
known dimensions, mirroring tf.TensorShape.as_list) together with a total data
function into the reals.  Engine operations that can reject mismatched shapes
(concat, split, elementwise arithmetic) are modelled in an Except monad; the
spec names such failures ShapeError (the source raises ValueError).
Learned parameters (kernels, biases, peephole diagonals) are values drawn from
an external variable store, so the embedded cell functions receive them as
explicit function arguments; initializers are tracked symbolically so that the
initializer-selection control flow of _conv_linear is visible.
-/

/-- Error taxonomy.  shapeError models the ValueError raised on rank or
dimension mismatches (called ShapeError in the spec); nameError models a
Python NameError on an unbound identifier; attributeError models a Python
AttributeError on reading an attribute that was never assigned; indexError
models a Python IndexError; typeError models a Python TypeError. -/
inductive TnnErr where
  | shapeError (msg : String)
  | nameError (name : String)
  | attributeError (attr : String)
  | indexError (msg : String)
  | typeError (msg : String)
deriving DecidableEq

/-- Symbolic record of which initializer a parameter was created with.
xavier models tf.contrib.layers.xavier_initializer(), constantZero models
tf.constant_initializer(0.0), custom models a caller-supplied initializer. -/
inductive InitKind where
  | xavier
  | constantZero
  | custom (idx : ℕ)
deriving DecidableEq

/-- A tensor: the shape is the list tf.TensorShape.as_list() would return
(none = unknown dimension), and data is the value at a (batch, row, col,
channel) index, meaningful on fully known rank-4 shapes. -/
structure Tensor where
  shape : List (Option ℕ)
  data : ℕ → ℕ → ℕ → ℕ → ℝ

/-- Dimension i of a tensor shape (none when out of range or unknown). -/
def Tensor.dim (t : Tensor) (i : ℕ) : Option ℕ :=
  t.shape.getD i none

/-- tf.zeros([b, h, w, d]). -/
noncomputable def tfZeros (b h w d : ℕ) : Tensor :=
  ⟨[some b, some h, some w, some d], fun _ _ _ _ => 0⟩

/-- tf.zeros(shape=s) for a raw shape list (used by the default input_init of
the node wrappers). -/
noncomputable def tfZerosOfShape (s : List (Option ℕ)) : Tensor :=
  ⟨s, fun _ _ _ _ => 0⟩

/-- Elementwise application of a scalar function (models tf.nn.tanh,
tf.nn.sigmoid, tf.nn.relu and the pluggable activation functions). -/
noncomputable def tfMap (f : ℝ → ℝ) (t : Tensor) : Tensor :=
  ⟨t.shape, fun b y x d => f (t.data b y x d)⟩

/-- Tensor plus broadcast scalar (models expressions such as
f + self.forget_bias). -/
noncomputable def tfAddScalar (t : Tensor) (s : ℝ) : Tensor :=
  ⟨t.shape, fun b y x d => t.data b y x d + s⟩

/-- Broadcast scalar minus tensor (models 1 - u, 1.0 - g, 1.0 - gh). -/
noncomputable def tfScalarSub (s : ℝ) (t : Tensor) : Tensor :=
  ⟨t.shape, fun b y x d => s - t.data b y x d⟩

/-- Broadcast of one dimension pair, numpy style: a size-1 dimension
stretches to the other operand, otherwise the dimensions must agree. -/
def broadcastDim (a b : Option ℕ) : Option (Option ℕ) :=
  if a = some 1 then some b
  else if b = some 1 then some a
  else if a = b then some a else none

/-- Broadcast of two equal-rank shapes, dimension by dimension (none when
some dimension pair is incompatible; the cells only combine equal-rank
operands, so rank alignment of differing ranks is not modelled). -/
def broadcastShapes : List (Option ℕ) → List (Option ℕ) →
    Option (List (Option ℕ))
  | [], [] => some []
  | a :: as, b :: bs => do
    let d ← broadcastDim a b
    let rest ← broadcastShapes as bs
    some (d :: rest)
  | _, _ => none

/-- Index into an operand dimension under broadcasting: a size-1 dimension
is always read at index 0. -/
def broadcastIdx (d : Option ℕ) (i : ℕ) : ℕ :=
  if d = some 1 then 0 else i

/-- Checked elementwise product with TensorFlow size-1 broadcasting: equal
shapes multiply pointwise; otherwise the shapes must be broadcast
compatible, with size-1 dimensions of either operand stretched. -/
noncomputable def tfMul (a b : Tensor) : Except TnnErr Tensor :=
  if a.shape = b.shape then
    .ok ⟨a.shape, fun i j k l => a.data i j k l * b.data i j k l⟩
  else
    match broadcastShapes a.shape b.shape with
    | some s =>
      .ok ⟨s, fun i j k l =>
        a.data (broadcastIdx (a.dim 0) i) (broadcastIdx (a.dim 1) j)
          (broadcastIdx (a.dim 2) k) (broadcastIdx (a.dim 3) l)
        * b.data (broadcastIdx (b.dim 0) i) (broadcastIdx (b.dim 1) j)
          (broadcastIdx (b.dim 2) k) (broadcastIdx (b.dim 3) l)⟩
    | none => .error (.shapeError "elementwise mul: incompatible shapes")

/-- Checked elementwise sum, with the same broadcasting rule. -/
noncomputable def tfAdd (a b : Tensor) : Except TnnErr Tensor :=
  if a.shape = b.shape then
    .ok ⟨a.shape, fun i j k l => a.data i j k l + b.data i j k l⟩
  else
    match broadcastShapes a.shape b.shape with
    | some s =>
      .ok ⟨s, fun i j k l =>
        a.data (broadcastIdx (a.dim 0) i) (broadcastIdx (a.dim 1) j)
          (broadcastIdx (a.dim 2) k) (broadcastIdx (a.dim 3) l)
        + b.data (broadcastIdx (b.dim 0) i) (broadcastIdx (b.dim 1) j)
          (broadcastIdx (b.dim 2) k) (broadcastIdx (b.dim 3) l)⟩
    | none => .error (.shapeError "elementwise add: incompatible shapes")

/-- Product of an unbatched (H, W, D) parameter tensor with a batched tensor,
broadcast over the batch dimension (models w_f_diag * c for the LSTM
peepholes). -/
noncomputable def tfMulHWD (w : ℕ → ℕ → ℕ → ℝ) (c : Tensor) : Tensor :=
  ⟨c.shape, fun b y x d => w y x d * c.data b y x d⟩

/-- Per-channel bias addition, broadcast over batch and space (the
`res + bias_term` of _conv_linear). -/
noncomputable def tfAddBias (t : Tensor) (bias : ℕ → ℝ) : Tensor :=
  ⟨t.shape, fun b y x d => t.data b y x d + bias d⟩

/-- Channel-axis slice of length len starting at channel offset off. -/
noncomputable def Tensor.slice3 (t : Tensor) (off len : ℕ) : Tensor :=
  ⟨[t.dim 0, t.dim 1, t.dim 2, some len], fun b y x d => t.data b y x (off + d)⟩

/-- Data of the channel-axis concatenation of a list of tensors. -/
noncomputable def concatData : List Tensor → ℕ → ℕ → ℕ → ℕ → ℝ
  | [], _, _, _, _ => 0
  | t :: rest, b, y, x, d =>
    let dt := (t.dim 3).getD 0
    if d < dt then t.data b y x d else concatData rest b y x (d - dt)

/-- tf.concat(axis=3, values=ts).  The engine requires every operand to be
rank 4 with the same leading three dimensions and a known channel depth. -/
noncomputable def tfConcat3 (ts : List Tensor) : Except TnnErr Tensor :=
  match ts with
  | [] => .error (.shapeError "concat of an empty list")
  | t :: rest =>
    if t.shape.length = 4 ∧ (t.dim 3).isSome = true ∧
        ∀ u ∈ rest, u.shape.length = 4 ∧ (u.dim 3).isSome = true ∧
          u.dim 0 = t.dim 0 ∧ u.dim 1 = t.dim 1 ∧ u.dim 2 = t.dim 2 then
      .ok ⟨[t.dim 0, t.dim 1, t.dim 2,
            some (((t :: rest).map fun u => (u.dim 3).getD 0).sum)],
           concatData (t :: rest)⟩
    else .error (.shapeError "concat: incompatible shapes")

/-- tf.split(axis=3, num_or_size_splits=2): the channel depth must be known
and even; the two halves are returned in order. -/
noncomputable def tfSplit2 (t : Tensor) : Except TnnErr (Tensor × Tensor) :=
  match t.dim 3 with
  | none => .error (.shapeError "split: unknown channel dimension")
  | some n =>
    if n % 2 = 0 then
      .ok (t.slice3 0 (n / 2), t.slice3 (n / 2) (n / 2))
    else .error (.shapeError "split: channel dimension not divisible")

/-- tf.split(axis=3, num_or_size_splits=4): the channel depth must be known
and divisible by 4; the four quarters are returned in order. -/
noncomputable def tfSplit4 (t : Tensor) :
    Except TnnErr (Tensor × Tensor × Tensor × Tensor) :=
  match t.dim 3 with
  | none => .error (.shapeError "split: unknown channel dimension")
  | some n =>
    if n % 4 = 0 then
      .ok (t.slice3 0 (n / 4), t.slice3 (n / 4) (n / 4),
           t.slice3 (2 * (n / 4)) (n / 4), t.slice3 (3 * (n / 4)) (n / 4))
    else .error (.shapeError "split: channel dimension not divisible")

/-- tf.split(axis=3, num_or_size_splits=[s1, s2, s3, s4]): the channel depth
must be known and equal to the sum of the requested sizes. -/
noncomputable def tfSplitSizes4 (s1 s2 s3 s4 : ℕ) (t : Tensor) :
    Except TnnErr (Tensor × Tensor × Tensor × Tensor) :=
  match t.dim 3 with
  | none => .error (.shapeError "split: unknown channel dimension")
  | some n =>
    if n = s1 + s2 + s3 + s4 then
      .ok (t.slice3 0 s1, t.slice3 s1 s2,
           t.slice3 (s1 + s2) s3, t.slice3 (s1 + s2 + s3) s4)
    else .error (.shapeError "split: sizes do not sum to channel dimension")

/-- Zero-padded read at possibly out-of-range (signed) spatial coordinates,
used for SAME padding. -/
noncomputable def Tensor.padRead (t : Tensor) (b : ℕ) (y x : ℤ) (c : ℕ) : ℝ :=
  if 0 ≤ y ∧ y < ((t.dim 1).getD 0 : ℤ) ∧ 0 ≤ x ∧ x < ((t.dim 2).getD 0 : ℤ)
  then t.data b y.toNat x.toNat c else 0

/-- tf.nn.conv2d with strides 1 and SAME padding: output spatial size equals
input spatial size; the kernel is indexed (tapRow, tapCol, inChannel,
outChannel) and the input is zero padded by (filter - 1) / 2 on each leading
side. -/
noncomputable def conv2dSame (inp : Tensor) (fh fw outDepth : ℕ)
    (kernel : ℕ → ℕ → ℕ → ℕ → ℝ) : Tensor :=
  ⟨[inp.dim 0, inp.dim 1, inp.dim 2, some outDepth],
   fun b y x o =>
     ∑ dy ∈ Finset.range fh, ∑ dx ∈ Finset.range fw,
       ∑ c ∈ Finset.range ((inp.dim 3).getD 0),
         inp.padRead b ((y : ℤ) + dy - ((fh - 1) / 2 : ℕ))
                       ((x : ℤ) + dx - ((fw - 1) / 2 : ℕ)) c
           * kernel dy dx c o⟩

/-- The logistic sigmoid, tf.nn.sigmoid. -/
noncomputable def sigmoid (x : ℝ) : ℝ := 1 / (1 + Real.exp (-x))

/-- The rank / channel prevalidation loop of _conv_linear (lines 1181-1189):
walks the argument shapes in order, raising on the first argument that is not
rank 4 (`len(shape) != 4`) or whose channel dimension is unset or zero
(`not shape[3]`), and otherwise accumulates the total channel depth. -/
def totalArgDepth : List (List (Option ℕ)) → Except TnnErr ℕ
  | [] => .ok 0
  | s :: rest =>
    if s.length ≠ 4 then .error (.shapeError "Linear is expecting 4D arguments")
    else
      match s.getD 3 none with
      | none => .error (.shapeError "Linear expects shape 4 of arguments")
      | some d =>
        if d = 0 then .error (.shapeError "Linear expects shape 4 of arguments")
        else do
          let t ← totalArgDepth rest
          .ok (d + t)

/-- Result of _conv_linear: the output tensor, the names of the parameters
allocated (in allocation order), which initializer each parameter was created
with, and whether the dead constant-zero bias-initializer fallback of line
1211 was taken. -/
structure ConvLinearResult where
  res : Tensor
  allocated : List String
  kernelInitUsed : InitKind
  biasInitUsed : Option InitKind
  biasFallbackUsed : Bool

/-- _conv_linear (lines 1165-1218).  Regularizers only feed a global loss
accumulator of the external engine and are omitted.  kernelVal and biasVal
are the parameter values handed back by the external variable store for
"weights" and "bias". -/
noncomputable def convLinear (args : List Tensor) (filter_size : ℕ × ℕ)
    (out_depth : ℕ) (bias : Bool)
    (bias_initializer kernel_initializer : Option InitKind)
    (kernelVal : ℕ → ℕ → ℕ → ℕ → ℝ) (biasVal : ℕ → ℝ) :
    Except TnnErr ConvLinearResult := do
  let _total ← totalArgDepth (args.map Tensor.shape)
  match args with
  | [] =>
    -- dtype = [a.dtype for a in args][0] : IndexError on an empty list
    .error (.indexError "dtype of empty argument list")
  | a0 :: _ => do
    -- lines 1197-1198: kernel initializer defaults to xavier
    let kInit := kernel_initializer.getD InitKind.xavier
    -- lines 1199-1200: the LOCAL bias_initializer is replaced by xavier
    -- when the caller supplied none
    let bInitLocal : Option InitKind :=
      match bias_initializer with
      | none => some InitKind.xavier
      | some i => some i
    -- kernel = tf.get_variable("weights", ...), then the convolution
    let inp ← if args.length = 1 then pure a0 else tfConcat3 args
    let res := conv2dSame inp filter_size.1 filter_size.2 out_depth kernelVal
    if bias = false then
      .ok ⟨res, ["weights"], kInit, none, false⟩
    else
      -- line 1211: `if bias_initializer is None` re-tests the local that was
      -- already replaced above; the constant-zero branch is dead code
      let (bInitFinal, fallback) :=
        match bInitLocal with
        | none => (some InitKind.constantZero, true)
        | some i => (some i, false)
      .ok ⟨tfAddBias res biasVal, ["weights", "bias"], kInit, bInitFinal, fallback⟩

/-- zero_state of the ConvRNNCell base class (lines 30-42), inherited by
ConvBasicCell, ConvNormBasicCell and ConvGRUCell: a zero tensor of shape
[batch_size, shape[0], shape[1], out_depth]. -/
noncomputable def ConvRNNCell.zero_state (shape : ℕ × ℕ) (out_depth : ℕ)
    (batch_size : ℕ) : Tensor :=
  tfZeros batch_size shape.1 shape.2 out_depth

/-- zero_state of ConvUGRNNCell (lines 402-414), textually identical to the
base class version. -/
noncomputable def ConvUGRNNCell.zero_state (shape : ℕ × ℕ) (out_depth : ℕ)
    (batch_size : ℕ) : Tensor :=
  tfZeros batch_size shape.1 shape.2 out_depth

/-- zero_state of ConvIntersectionRNNCell (lines 492-504), textually identical
to the base class version. -/
noncomputable def ConvIntersectionRNNCell.zero_state (shape : ℕ × ℕ)
    (out_depth : ℕ) (batch_size : ℕ) : Tensor :=
  tfZeros batch_size shape.1 shape.2 out_depth

/-- LSTM state: either an LSTMStateTuple (c, h) or the channel concatenation
of c and h, per the state_is_tuple construction flag. -/
inductive LSTMState where
  | tuple (c h : Tensor)
  | concat (ch : Tensor)

/-- Construction-time configuration of ConvLSTMCell (lines 212-255).  The
weight decay and the norm gain/shift feed only the external regularizer and
layer_norm collaborators and are omitted. -/
structure ConvLSTMCellCfg where
  shape : ℕ × ℕ
  filter_size : ℕ × ℕ
  out_depth : ℕ
  use_peepholes : Bool
  forget_bias : ℝ
  state_is_tuple : Bool
  activation : ℝ → ℝ
  kernel_initializer : Option InitKind
  bias_initializer : Option InitKind
  layer_norm : Bool

/-- ConvLSTMCell.zero_state (lines 266-284): an LSTMStateTuple of two zero
tensors of depth out_depth when state_is_tuple, else a single zero tensor of
depth out_depth * 2. -/
noncomputable def ConvLSTMCell.zero_state (cfg : ConvLSTMCellCfg) (batch_size : ℕ) :
    LSTMState :=
  if cfg.state_is_tuple then
    .tuple (tfZeros batch_size cfg.shape.1 cfg.shape.2 cfg.out_depth)
           (tfZeros batch_size cfg.shape.1 cfg.shape.2 cfg.out_depth)
  else
    .concat (tfZeros batch_size cfg.shape.1 cfg.shape.2 (cfg.out_depth * 2))

/-- ConvLSTMCell.__call__ (lines 297-355).  kernelVal / biasVal are the
"weights" / "bias" parameter values, wf/wi/wo the peephole diagonal parameter
values, and norm the external tf.contrib.layers.layer_norm collaborator
(indexed by its scope name).  The state argument is unpacked according to the
state_is_tuple flag exactly as in the source: `c, h = state` for the tuple
flag (a TypeError when a single tensor is passed), tf.split for the
concatenated flag (a TypeError when a tuple is passed). -/
noncomputable def ConvLSTMCell.call (cfg : ConvLSTMCellCfg)
    (kernelVal : ℕ → ℕ → ℕ → ℕ → ℝ) (biasVal : ℕ → ℝ)
    (wf wi wo : ℕ → ℕ → ℕ → ℝ) (norm : String → Tensor → Tensor)
    (inputs : Tensor) (state : LSTMState) :
    Except TnnErr (Tensor × LSTMState) := do
  let (c, h) ←
    if cfg.state_is_tuple then
      match state with
      | .tuple c h => Except.ok (c, h)
      | .concat _ => Except.error (.typeError "cannot unpack a tensor state")
    else
      match state with
      | .concat s => tfSplit2 s
      | .tuple _ _ => Except.error (.typeError "cannot split a tuple state")
  let clr ← convLinear [inputs, h] cfg.filter_size (cfg.out_depth * 4) true
    cfg.bias_initializer cfg.kernel_initializer kernelVal biasVal
  -- i = input_gate, j = new_input, f = forget_gate, o = output_gate
  let (i, j, f, o) ← tfSplit4 clr.res
  let i := if cfg.layer_norm then norm "input" i else i
  let j := if cfg.layer_norm then norm "transform" j else j
  let f := if cfg.layer_norm then norm "forget" f else f
  let o := if cfg.layer_norm then norm "output" o else o
  let new_c ←
    if cfg.use_peepholes then do
      let t1 ← tfMul c (tfMap sigmoid
        (← tfAdd (tfAddScalar f cfg.forget_bias) (tfMulHWD wf c)))
      let t2 ← tfMul (tfMap sigmoid (← tfAdd i (tfMulHWD wi c)))
        (tfMap cfg.activation j)
      tfAdd t1 t2
    else do
      let t1 ← tfMul c (tfMap sigmoid (tfAddScalar f cfg.forget_bias))
      let t2 ← tfMul (tfMap sigmoid i) (tfMap cfg.activation j)
      tfAdd t1 t2
  let new_c := if cfg.layer_norm then norm "state" new_c else new_c
  let new_h ←
    if cfg.use_peepholes then
      tfMul (tfMap cfg.activation new_c)
        (tfMap sigmoid (← tfAdd o (tfMulHWD wo c)))
    else
      tfMul (tfMap cfg.activation new_c) (tfMap sigmoid o)
  let new_state ←
    if cfg.state_is_tuple then
      Except.ok (LSTMState.tuple new_c new_h)
    else do
      let cc ← tfConcat3 [new_c, new_h]
      Except.ok (LSTMState.concat cc)
  Except.ok (new_h, new_state)

/-- Construction-time configuration shared by ConvUGRNNCell (lines 361-392)
and ConvIntersectionRNNCell (lines 451-482); weight decay and norm gain/shift
omitted as for the LSTM. -/
structure ConvGatedCellCfg where
  shape : ℕ × ℕ
  filter_size : ℕ × ℕ
  out_depth : ℕ
  forget_bias : ℝ
  kernel_initializer : Option InitKind
  bias_initializer : Option InitKind
  layer_norm : Bool

/-- ConvUGRNNCell.__call__ (lines 427-445).  When layer_norm is set, the
source line 438 reads `c_act = self._norm(h_act, "c_act")`: the identifier
h_act is never bound anywhere in this function (or this module), so the
Python interpreter raises NameError while evaluating the argument. -/
noncomputable def ConvUGRNNCell.call (cfg : ConvGatedCellCfg)
    (kernelVal : ℕ → ℕ → ℕ → ℕ → ℝ) (biasVal : ℕ → ℝ)
    (norm : String → Tensor → Tensor) (inputs state : Tensor) :
    Except TnnErr (Tensor × Tensor) := do
  let clr ← convLinear [inputs, state] cfg.filter_size (2 * cfg.out_depth) true
    cfg.bias_initializer cfg.kernel_initializer kernelVal biasVal
  let (g_act, c_act) ← tfSplit2 clr.res
  if cfg.layer_norm then
    let _g_act := norm "g_act" g_act
    Except.error (.nameError "h_act")
  else
    let c := tfMap Real.tanh c_act
    let g := tfMap sigmoid (tfAddScalar g_act cfg.forget_bias)
    let t1 ← tfMul g state
    let t2 ← tfMul (tfScalarSub 1 g) c
    let new_state ← tfAdd t1 t2
    Except.ok (new_state, new_state)

/-- The gate computation of ConvIntersectionRNNCell.__call__ after the linear
transform (lines 528-544): split into (gh, h, gy, y) activations in that
order, optional layer normalization, then the time-path and depth-path
updates. -/
noncomputable def convIntersectionGates (cfg : ConvGatedCellCfg)
    (norm : String → Tensor → Tensor) (inputs state concat : Tensor) :
    Except TnnErr (Tensor × Tensor) := do
  let (gh_act, h_act, gy_act, y_act) ←
    tfSplitSizes4 cfg.out_depth cfg.out_depth cfg.out_depth cfg.out_depth concat
  let gh_act := if cfg.layer_norm then norm "gh_act" gh_act else gh_act
  let h_act := if cfg.layer_norm then norm "h_act" h_act else h_act
  let gy_act := if cfg.layer_norm then norm "gy_act" gy_act else gy_act
  let y_act := if cfg.layer_norm then norm "y_act" y_act else y_act
  let h := tfMap Real.tanh h_act
  let y := tfMap (fun v => max v 0) y_act
  let gh := tfMap sigmoid (tfAddScalar gh_act cfg.forget_bias)
  let gy := tfMap sigmoid (tfAddScalar gy_act cfg.forget_bias)
  -- new_state = gh * state + (1 - gh) * h, passed through time
  let s1 ← tfMul gh state
  let s2 ← tfMul (tfScalarSub 1 gh) h
  let new_state ← tfAdd s1 s2
  -- new_y = gy * inputs + (1 - gy) * y, passed through depth
  let y1 ← tfMul gy inputs
  let y2 ← tfMul (tfScalarSub 1 gy) y
  let new_y ← tfAdd y1 y2
  Except.ok (new_y, new_state)

/-- The explicit input-shape check of ConvIntersectionRNNCell.__call__
(lines 521-522) with Python evaluation order: each `as_list()[k]` raises
IndexError when the shape has fewer than k + 1 dimensions, and the `or`
chain short-circuits, raising the ValueError on the first dimension that
differs from the expected value (an unknown dimension None compares unequal
to every int).  Returns the raised error, or none when the check passes. -/
def irnnPrecheck (inputs : Tensor) (H W D : ℕ) : Option TnnErr :=
  if inputs.shape.length ≤ 1 then some (.indexError "list index out of range")
  else if inputs.dim 1 ≠ some H then
    some (.shapeError "Input and output shape must match.")
  else if inputs.shape.length ≤ 2 then
    some (.indexError "list index out of range")
  else if inputs.dim 2 ≠ some W then
    some (.shapeError "Input and output shape must match.")
  else if inputs.shape.length ≤ 3 then
    some (.indexError "list index out of range")
  else if inputs.dim 3 ≠ some D then
    some (.shapeError "Input and output shape must match.")
  else none

/-- ConvIntersectionRNNCell.__call__ (lines 517-544).  The second component
of the result is the list of parameters allocated during the call, in order;
the explicit input-shape check of lines 521-522 runs before any parameter is
created, so both of its error paths (IndexError on a rank-deficient input,
ValueError on a mismatching dimension) allocate nothing. -/
noncomputable def ConvIntersectionRNNCell.call (cfg : ConvGatedCellCfg)
    (kernelVal : ℕ → ℕ → ℕ → ℕ → ℝ) (biasVal : ℕ → ℝ)
    (norm : String → Tensor → Tensor) (inputs state : Tensor) :
    Except TnnErr (Tensor × Tensor) × List String :=
  match irnnPrecheck inputs cfg.shape.1 cfg.shape.2 cfg.out_depth with
  | some e => (.error e, [])
  | none =>
    match convLinear [inputs, state] cfg.filter_size
        (2 * cfg.out_depth + 2 * cfg.out_depth) true
        cfg.bias_initializer cfg.kernel_initializer kernelVal biasVal with
    | .error e => (.error e, [])
    | .ok clr =>
      (convIntersectionGates cfg norm inputs state clr.res,
       clr.allocated ++
         (if cfg.layer_norm then
            ["gh_act.gamma", "gh_act.beta", "h_act.gamma", "h_act.beta",
             "gy_act.gamma", "gy_act.beta", "y_act.gamma", "y_act.beta"]
          else []))

/-- A pre/post-memory pipeline entry.  The source dispatches on the declared
function name: a step whose __name__ is "component_conv" is called with the
raw inputs list as an extra argument; every other step receives only the
running tensor.  The keyword options of the (function, kwargs) pair are
absorbed into the function. -/
inductive PipeFn where
  | componentConv (f : Tensor → List Tensor → Tensor)
  | plain (f : Tensor → Tensor)

/-- Whether the entry is the raw-inputs-taking "component_conv" kind. -/
def PipeFn.isComponentConv : PipeFn → Bool
  | .componentConv _ => true
  | .plain _ => false

/-- One pipeline application, with the raw-inputs dispatch of the source. -/
def PipeFn.apply : PipeFn → Tensor → List Tensor → Tensor
  | .componentConv f, t, ins => f t ins
  | .plain f, t, _ => f t

/-- Observable events of one node-wrapper __call__, in execution order.  The
reuse field of an event records the reuse flag passed to the corresponding
variable scope; gotRawInputs records whether the pipeline step received the
raw inputs list. -/
inductive CallEvent where
  | harborCall (reuse : Bool) (numInputs : ℕ)
  | preStep (idx : ℕ) (reuse : Bool) (gotRawInputs : Bool)
  | zeroStateInit (batchSize : Option ℕ)
  | cellStep
  | postStep (idx : ℕ) (reuse : Bool) (gotRawInputs : Bool)
  | castOutput
deriving DecidableEq

/-- Construction-time configuration of a tnn_*Cell node wrapper (the six
wrapper classes, lines 546-1163, share this __init__ and __call__ body
verbatim; they differ only in which inner cell conv_cell is built, abstracted
here as cellCall / cellZeroState over a state type S).  harbor receives the
input list, the declared harbor shape and the current reuse flag; castFn
models tf.cast to the configured dtype; stateShapeOf extracts the cached
shape of a cell state. -/
structure TnnCellCfg (S : Type) where
  harbor_shape : List (Option ℕ)
  harbor : List Tensor → List (Option ℕ) → Bool → Tensor
  pre_memory : List PipeFn
  post_memory : List PipeFn
  input_init : List (Option ℕ) → Tensor
  cellCall : Tensor → S → Except TnnErr (Tensor × S)
  cellZeroState : Option ℕ → S
  stateShapeOf : S → List (Option ℕ)
  castFn : Tensor → Tensor

/-- Mutable wrapper state: the private _reuse flag (Python None modelled as
false) and the state_shape / output_tmp_shape attributes, which are assigned
only at the end of __call__ and are absent (AttributeError on read) before
the first call. -/
structure TnnState where
  reuse : Bool
  state_shape : Option (List (Option ℕ))
  output_shape : Option (List (Option ℕ))

/-- The wrapper state of a freshly constructed node wrapper. -/
def initialTnnState : TnnState :=
  ⟨false, none, none⟩

/-- Lines 590-592: only a missing (None) inputs argument is replaced by one
synthesized tensor built by the input_init strategy on the harbor shape; any
supplied list, including the empty list, is used as is. -/
def resolvedInputs {S : Type} (cfg : TnnCellCfg S)
    (inputs : Option (List Tensor)) : List Tensor :=
  match inputs with
  | none => [cfg.input_init cfg.harbor_shape]
  | some l => l

/-- The pre/post-memory loop of the wrapper (lines 595-602 and 611-618): the
steps are applied to the running tensor in list order under scopes named by a
running counter, and each application is recorded as an event (pre when the
tag is true, post otherwise). -/
def runPipelineCtr (steps : List PipeFn) (reuse : Bool) (tag : Bool)
    (out : Tensor) (inputs : List Tensor) (ctr : ℕ) :
    Tensor × List CallEvent :=
  match steps with
  | [] => (out, [])
  | s :: rest =>
    let out2 := s.apply out inputs
    let ev := if tag then CallEvent.preStep ctr reuse s.isComponentConv
              else CallEvent.postStep ctr reuse s.isComponentConv
    let (outF, evs) := runPipelineCtr rest reuse tag out2 inputs (ctr + 1)
    (outF, ev :: evs)

/-- Reference fold of a pipeline: apply the steps to the running tensor in
list order, threading the raw inputs list. -/
def runPipeline (steps : List PipeFn) (out : Tensor) (inputs : List Tensor) :
    Tensor :=
  match steps with
  | [] => out
  | s :: rest => runPipeline rest (s.apply out inputs) inputs

/-- The __call__ body shared by the six node wrappers (lines 576-625):
resolve missing inputs, harbor, pre-memory pipeline, optional zero state from
the leading dimension of the running tensor, one inner-cell step, post-memory
pipeline, cast; then flip the reuse flag and cache the state and output
shapes.  The returned event list is the execution trace of the call. -/
def tnnCall {S : Type} (cfg : TnnCellCfg S) (st : TnnState)
    (inputs : Option (List Tensor)) (state : Option S) :
    Except TnnErr (Tensor × S × TnnState × List CallEvent) := do
  let ins := resolvedInputs cfg inputs
  let out0 := cfg.harbor ins cfg.harbor_shape st.reuse
  let (out1, preEvs) := runPipelineCtr cfg.pre_memory st.reuse true out0 ins 0
  let (state1, zeroEvs) :=
    match state with
    | none =>
      let bs := out1.dim 0
      (cfg.cellZeroState bs, [CallEvent.zeroStateInit bs])
    | some s => (s, ([] : List CallEvent))
  let (cellOut, newState) ← cfg.cellCall out1 state1
  let (out2, postEvs) := runPipelineCtr cfg.post_memory st.reuse false cellOut ins 0
  let outF := cfg.castFn out2
  let st2 : TnnState :=
    ⟨true, some (cfg.stateShapeOf newState), some outF.shape⟩
  Except.ok (outF, newState, st2,
    CallEvent.harborCall st.reuse ins.length
      :: preEvs ++ zeroEvs ++ [CallEvent.cellStep] ++ postEvs
      ++ [CallEvent.castOutput])

/-- The state_size accessor (lines 627-637): returns self.state_shape, an
attribute assigned only at the end of __call__, so a fresh wrapper raises
AttributeError (the explicit not-initialized ValueError of the source is
commented out). -/
def tnnStateSize (st : TnnState) : Except TnnErr (List (Option ℕ)) :=
  match st.state_shape with
  | some s => .ok s
  | none => .error (.attributeError "state_shape")

/-- The output_size accessor (lines 639-647): returns self.output_tmp_shape,
likewise absent before the first __call__. -/
def tnnOutputSize (st : TnnState) : Except TnnErr (List (Option ℕ)) :=
  match st.output_shape with
  | some s => .ok s
  | none => .error (.attributeError "output_tmp_shape")

/-- A minimal concrete wrapper configuration over tensor-valued states, used
to instantiate the wrapper theorems: constant harbor, empty pipelines,
identity inner cell, identity cast. -/
noncomputable def sampleWrapperCfg : TnnCellCfg Tensor where
  harbor_shape := [some 1, some 1, some 1, some 1]
  harbor := fun _ s _ => tfZerosOfShape s
  pre_memory := []
  post_memory := []
  input_init := tfZerosOfShape
  cellCall := fun t s => .ok (t, s)
  cellZeroState := fun b => tfZeros (b.getD 0) 1 1 1
  stateShapeOf := Tensor.shape
  castFn := id

/-- A rank-1 tensor used to exercise the rank check of _conv_linear. -/
noncomputable def badRankTensor : Tensor :=
  ⟨[some 1], fun _ _ _ _ => 0⟩

/-- A sample wrapper with a two-step pre-memory pipeline (one plain step,
one component_conv step) and a one-step post-memory pipeline. -/
noncomputable def samplePipelineCfg : TnnCellCfg Tensor where
  harbor_shape := [some 1, some 1, some 1, some 1]
  harbor := fun _ s _ => tfZerosOfShape s
  pre_memory := [PipeFn.plain (tfMap (fun v => v + 1)),
                 PipeFn.componentConv (fun t _ => t)]
  post_memory := [PipeFn.plain id]
  input_init := tfZerosOfShape
  cellCall := fun t s => .ok (t, s)
  cellZeroState := fun b => tfZeros (b.getD 0) 1 1 1
  stateShapeOf := Tensor.shape
  castFn := id

/-- The reuse flag recorded by an event, when the corresponding source line
opens a variable scope with an explicit reuse argument. -/
def eventReuse : CallEvent → Option Bool
  | .harborCall r _ => some r
  | .preStep _ r _ => some r
  | .postStep _ r _ => some r
  | _ => none

/-- The shape of an optional explicit state argument of a wrapper call. -/
def stateArgShape {S : Type} (cfg : TnnCellCfg S) (s : Option S) :
    Option (List (Option ℕ)) :=
  s.map cfg.stateShapeOf

/-- Shape determinism of the injected collaborators of a node wrapper: the
harbor, every pipeline step, the inner cell and the cast produce output
shapes that depend only on the shapes of their tensor arguments (true of the
convolutional collaborators the wrappers are used with, where shapes are
static graph metadata). -/
def ShapeFaithful {S : Type} (cfg : TnnCellCfg S) : Prop :=
  (∀ ins ins2 r r2, ins.map Tensor.shape = ins2.map Tensor.shape →
    (cfg.harbor ins cfg.harbor_shape r).shape
      = (cfg.harbor ins2 cfg.harbor_shape r2).shape)
  ∧ (∀ p ∈ cfg.pre_memory ++ cfg.post_memory, ∀ t t2 ins ins2,
      t.shape = t2.shape → ins.map Tensor.shape = ins2.map Tensor.shape →
      (p.apply t ins).shape = (p.apply t2 ins2).shape)
  ∧ (∀ t t2 s s2 o o2 n n2, t.shape = t2.shape →
      cfg.stateShapeOf s = cfg.stateShapeOf s2 →
      cfg.cellCall t s = .ok (o, n) → cfg.cellCall t2 s2 = .ok (o2, n2) →
      o.shape = o2.shape ∧ cfg.stateShapeOf n = cfg.stateShapeOf n2)
  ∧ (∀ t t2, t.shape = t2.shape →
      (cfg.castFn t).shape = (cfg.castFn t2).shape)

/-- The new cell state of the peephole-free, normalization-free LSTM update,
written over the linear-transform output pre: the spec formula
new_c = c * sigmoid(f + forget_bias) + sigmoid(i) * activation(j) with the
gates read off pre in the fixed order i (offset 0), j (offset D),
f (offset 2 D), o (offset 3 D). -/
noncomputable def lstmNewC (act : ℝ → ℝ) (fb : ℝ) (D : ℕ)
    (pre c : Tensor) : Tensor :=
  ⟨c.shape, fun b y x d =>
    c.data b y x d * sigmoid (pre.data b y x (2 * D + d) + fb)
      + sigmoid (pre.data b y x (0 + d)) * act (pre.data b y x (D + d))⟩

/-- The new hidden state of the same update:
new_h = activation(new_c) * sigmoid(o), with o at offset 3 D of pre. -/
noncomputable def lstmNewH (act : ℝ → ℝ) (fb : ℝ) (D : ℕ)
    (pre c : Tensor) : Tensor :=
  ⟨c.shape, fun b y x d =>
    act ((lstmNewC act fb D pre c).data b y x d)
      * sigmoid (pre.data b y x (3 * D + d))⟩

theorem length_four_eq {α : Type _} :
    ∀ {l : List α}, l.length = 4 → ∃ a b c d, l = [a, b, c, d]
  | [a, b, c, d], _ => ⟨a, b, c, d, rfl⟩
  | [], h => by simp at h
  | [_], h => by simp at h
  | [_, _], h => by simp at h
  | [_, _, _], h => by simp at h
  | _ :: _ :: _ :: _ :: _ :: _, h => by simp at h

theorem totalArgDepth_error_of_bad (shapes : List (List (Option ℕ)))
    (hbad : ∃ s ∈ shapes,
      s.length ≠ 4 ∨ s.getD 3 none = none ∨ s.getD 3 none = some 0) :
    ∃ msg, totalArgDepth shapes = .error (.shapeError msg) := by
  induction shapes with
  | nil => simp at hbad
  | cons s rest ih =>
    obtain ⟨t, ht, hb⟩ := hbad
    by_cases h4 : s.length = 4
    · obtain ⟨a, b, c, ch, rfl⟩ := length_four_eq h4
      cases ch with
      | none => exact ⟨"Linear expects shape 4 of arguments", by simp [totalArgDepth]⟩
      | some d =>
        by_cases hd : d = 0
        · subst hd; exact ⟨"Linear expects shape 4 of arguments", by simp [totalArgDepth]⟩
        · have hrest : t ∈ rest := by
            rcases List.mem_cons.mp ht with rfl | h
            · simp [hd] at hb
            · exact h
          obtain ⟨msg, hmsg⟩ := ih ⟨t, hrest, hb⟩
          exact ⟨msg, by simp [totalArgDepth, hd, hmsg, Bind.bind, Except.bind]⟩
    · exact ⟨"Linear is expecting 4D arguments", by simp [totalArgDepth, h4]⟩

theorem totalArgDepth_ok_of_good (shapes : List (List (Option ℕ)))
    (hgood : ∀ s ∈ shapes, s.length = 4 ∧ ∃ n, s.getD 3 none = some n ∧ n ≠ 0) :
    ∃ m, totalArgDepth shapes = .ok m := by
  induction shapes with
  | nil => exact ⟨0, rfl⟩
  | cons s rest ih =>
    obtain ⟨h4, n, hn, hn0⟩ := hgood s (by simp)
    obtain ⟨a, b, c, ch, rfl⟩ := length_four_eq h4
    have hch : ch = some n := by simpa using hn
    subst hch
    obtain ⟨m, hm⟩ := ih fun t ht => hgood t (by simp [ht])
    exact ⟨n + m, by simp [totalArgDepth, hn0, hm, Bind.bind, Except.bind]⟩

theorem conv2dSame_shape (t : Tensor) (fh fw od : ℕ) (k : ℕ → ℕ → ℕ → ℕ → ℝ) :
    (conv2dSame t fh fw od k).shape = [t.dim 0, t.dim 1, t.dim 2, some od] :=
  rfl

theorem tfAddBias_shape (t : Tensor) (b : ℕ → ℝ) :
    (tfAddBias t b).shape = t.shape :=
  rfl

theorem Tensor.dim_of_shape {t : Tensor} {a b c d : Option ℕ}
    (h : t.shape = [a, b, c, d]) :
    t.dim 0 = a ∧ t.dim 1 = b ∧ t.dim 2 = c ∧ t.dim 3 = d := by
  simp [Tensor.dim, h]

theorem tfConcat3_cons (t : Tensor) (rest : List Tensor) :
    tfConcat3 (t :: rest) =
      if t.shape.length = 4 ∧ (t.dim 3).isSome = true ∧
          ∀ u ∈ rest, u.shape.length = 4 ∧ (u.dim 3).isSome = true ∧
            u.dim 0 = t.dim 0 ∧ u.dim 1 = t.dim 1 ∧ u.dim 2 = t.dim 2 then
        .ok ⟨[t.dim 0, t.dim 1, t.dim 2,
              some (((t :: rest).map fun u => (u.dim 3).getD 0).sum)],
             concatData (t :: rest)⟩
      else .error (.shapeError "concat: incompatible shapes") :=
  rfl

theorem tfConcat3_ok_shape (t : Tensor) (rest : List Tensor) (u : Tensor)
    (h : tfConcat3 (t :: rest) = .ok u) :
    ∃ n, u.shape = [t.dim 0, t.dim 1, t.dim 2, some n] := by
  rw [tfConcat3_cons] at h
  split at h
  · cases h; exact ⟨_, rfl⟩
  · simp at h

theorem tfConcat3_ok_of_good (t : Tensor) (rest : List Tensor)
    (h4 : t.shape.length = 4) (h3 : (t.dim 3).isSome = true)
    (hrest : ∀ u ∈ rest, u.shape.length = 4 ∧ (u.dim 3).isSome = true ∧
      u.dim 0 = t.dim 0 ∧ u.dim 1 = t.dim 1 ∧ u.dim 2 = t.dim 2) :
    tfConcat3 (t :: rest) =
      .ok ⟨[t.dim 0, t.dim 1, t.dim 2,
            some (((t :: rest).map fun u => (u.dim 3).getD 0).sum)],
           concatData (t :: rest)⟩ := by
  rw [tfConcat3_cons, if_pos ⟨h4, h3, hrest⟩]

theorem convLinear_ok_shape_head (a0 : Tensor) (rest : List Tensor)
    (fs : ℕ × ℕ) (od : ℕ) (bias : Bool) (bi ki : Option InitKind)
    (kv : ℕ → ℕ → ℕ → ℕ → ℝ) (bv : ℕ → ℝ) (r : ConvLinearResult)
    (h : convLinear (a0 :: rest) fs od bias bi ki kv bv = .ok r) :
    r.res.shape = [a0.dim 0, a0.dim 1, a0.dim 2, some od] := by
  unfold convLinear at h
  cases htd : totalArgDepth ((a0 :: rest).map Tensor.shape) with
  | error e => rw [htd] at h; simp [Bind.bind, Except.bind] at h
  | ok n =>
    rw [htd] at h
    simp only [Bind.bind, Except.bind] at h
    cases rest with
    | nil =>
      simp only [List.length_cons, List.length_nil, Nat.zero_add,
        if_pos, Pure.pure, Except.pure] at h
      cases bias with
      | false => simp only [if_pos] at h; cases h; exact rfl
      | true =>
        simp only [Bool.true_eq_false, if_neg, Bool.false_eq_true] at h
        cases bi <;> (cases h; exact rfl)
    | cons a1 rest2 =>
      have hlen : (a0 :: a1 :: rest2).length = 1 → False := by simp
      rw [if_neg (by simp)] at h
      cases hcc : tfConcat3 (a0 :: a1 :: rest2) with
      | error e => rw [hcc] at h; simp at h
      | ok ct =>
        rw [hcc] at h
        obtain ⟨m, hm⟩ := tfConcat3_ok_shape _ _ _ hcc
        obtain ⟨hd0, hd1, hd2, _⟩ := Tensor.dim_of_shape hm
        simp only at h
        cases bias with
        | false =>
          simp only [if_pos] at h; cases h
          simp [conv2dSame_shape, hd0, hd1, hd2]
        | true =>
          simp only [Bool.true_eq_false, if_neg, Bool.false_eq_true] at h
          cases bi <;>
            (cases h
             simp [tfAddBias_shape, conv2dSame_shape, hd0, hd1, hd2])

theorem convLinear_ok_of_good (a0 : Tensor) (rest : List Tensor)
    (fs : ℕ × ℕ) (od : ℕ) (bias : Bool) (bi ki : Option InitKind)
    (kv : ℕ → ℕ → ℕ → ℕ → ℝ) (bv : ℕ → ℝ)
    (hgood : ∀ t ∈ a0 :: rest,
      t.shape.length = 4 ∧ ∃ n, t.dim 3 = some n ∧ n ≠ 0)
    (hdims : ∀ t ∈ rest,
      t.dim 0 = a0.dim 0 ∧ t.dim 1 = a0.dim 1 ∧ t.dim 2 = a0.dim 2) :
    ∃ r, convLinear (a0 :: rest) fs od bias bi ki kv bv = .ok r ∧
      r.res.shape = [a0.dim 0, a0.dim 1, a0.dim 2, some od] := by
  obtain ⟨m, hm⟩ := totalArgDepth_ok_of_good ((a0 :: rest).map Tensor.shape)
    (by
      intro s hs
      obtain ⟨t, ht, rfl⟩ := List.mem_map.mp hs
      obtain ⟨h4, n, hn, hn0⟩ := hgood t ht
      exact ⟨h4, n, hn, hn0⟩)
  have hconv : ∃ r, convLinear (a0 :: rest) fs od bias bi ki kv bv = .ok r := by
    unfold convLinear
    rw [hm]
    simp only [Bind.bind, Except.bind]
    cases rest with
    | nil =>
      rw [if_pos (by simp)]
      simp only [Pure.pure, Except.pure]
      cases bias with
      | false => exact ⟨_, by rw [if_pos rfl]⟩
      | true => exact ⟨_, by rw [if_neg (by simp)]⟩
    | cons a1 rest2 =>
      rw [if_neg (by simp)]
      have hcc := tfConcat3_ok_of_good a0 (a1 :: rest2)
        (hgood a0 (by simp)).1
        (by obtain ⟨-, n, hn, -⟩ := hgood a0 (by simp); rw [hn]; rfl)
        (by
          intro u hu
          obtain ⟨h4, n, hn, -⟩ := hgood u (by simp [hu])
          obtain ⟨hd0, hd1, hd2⟩ := hdims u hu
          exact ⟨h4, by rw [hn]; rfl, hd0, hd1, hd2⟩)
      rw [hcc]
      simp only
      cases bias with
      | false => exact ⟨_, by rw [if_pos rfl]⟩
      | true => exact ⟨_, by rw [if_neg (by simp)]⟩
  obtain ⟨r, hr⟩ := hconv
  exact ⟨r, hr, convLinear_ok_shape_head a0 rest fs od bias bi ki kv bv r hr⟩

/-- C4: for every node wrapper, querying the state_size or output_size
accessor before the first step call fails (the state_shape /
output_tmp_shape attributes are assigned only at the end of __call__, so the
fresh wrapper raises AttributeError, an equivalent not-initialized-yet
signal) rather than returning a value. -/
theorem tnn_size_accessors_fail_before_first_call :
    tnnStateSize initialTnnState = .error (.attributeError "state_shape")
    ∧ tnnOutputSize initialTnnState = .error (.attributeError "output_tmp_shape") :=
  ⟨rfl, rfl⟩

/-- C8: for every recurrent-cell variant and every batch size B ≥ 1,
zero_state(B) is state of exactly the declared shape filled with zeros:
(B, H, W, out_depth) for the single-tensor variants (the base class shared
by Basic, Norm-Basic and GRU, plus the identical UGRNN and Intersection-RNN
copies), and for the LSTM variant an (c, h) pair of two such tensors in
tuple mode or one (B, H, W, 2 out_depth) tensor in concatenated mode. -/
theorem zero_state_declared_shape_all_zero :
    (∀ b h w d i j k l, (tfZeros b h w d).shape = [some b, some h, some w, some d]
      ∧ (tfZeros b h w d).data i j k l = 0)
    ∧ ∀ H W D B : ℕ, 1 ≤ B →
      ConvRNNCell.zero_state (H, W) D B = tfZeros B H W D
      ∧ ConvUGRNNCell.zero_state (H, W) D B = tfZeros B H W D
      ∧ ConvIntersectionRNNCell.zero_state (H, W) D B = tfZeros B H W D
      ∧ ∀ cfg : ConvLSTMCellCfg, cfg.shape = (H, W) → cfg.out_depth = D →
          (cfg.state_is_tuple = true →
            ConvLSTMCell.zero_state cfg B
              = .tuple (tfZeros B H W D) (tfZeros B H W D))
          ∧ (cfg.state_is_tuple = false →
            ConvLSTMCell.zero_state cfg B = .concat (tfZeros B H W (2 * D))) := by
  refine ⟨fun b h w d i j k l => ⟨rfl, rfl⟩, ?_⟩
  intro H W D B _
  refine ⟨rfl, rfl, rfl, ?_⟩
  intro cfg hsh hd
  constructor
  · intro ht; simp [ConvLSTMCell.zero_state, ht, hsh, hd]
  · intro ht; simp [ConvLSTMCell.zero_state, ht, hsh, hd, Nat.mul_comm]

/-- Witness for C8 at B = 2, H = 4, W = 4, D = 8. -/
theorem zero_state_declared_shape_all_zero_witness :
    1 ≤ 2
    ∧ ConvRNNCell.zero_state (4, 4) 8 2 = tfZeros 2 4 4 8
    ∧ ConvUGRNNCell.zero_state (4, 4) 8 2 = tfZeros 2 4 4 8
    ∧ ConvIntersectionRNNCell.zero_state (4, 4) 8 2 = tfZeros 2 4 4 8 := by
  have h := (zero_state_declared_shape_all_zero.2 4 4 8 2 (by decide))
  exact ⟨by decide, h.1, h.2.1, h.2.2.1⟩

/-- C7: the linear transform _conv_linear fails with a ShapeError when some
input tensor is not exactly 4-dimensional or has an unset or zero channel
dimension; otherwise (a nonempty argument list of valid, leading-dimension
compatible tensors) it returns a single 4D tensor of shape
(batch, h, w, out_depth). -/
theorem convLinear_shape_validation :
    (∀ (args : List Tensor) (fs : ℕ × ℕ) (od : ℕ) (bias : Bool)
        (bi ki : Option InitKind) (kv : ℕ → ℕ → ℕ → ℕ → ℝ) (bv : ℕ → ℝ),
      (∃ t ∈ args, t.shape.length ≠ 4 ∨ t.dim 3 = none ∨ t.dim 3 = some 0) →
      ∃ msg, convLinear args fs od bias bi ki kv bv = .error (.shapeError msg))
    ∧ (∀ (a0 : Tensor) (rest : List Tensor) (fs : ℕ × ℕ) (od : ℕ)
        (bias : Bool) (bi ki : Option InitKind)
        (kv : ℕ → ℕ → ℕ → ℕ → ℝ) (bv : ℕ → ℝ),
      (∀ t ∈ a0 :: rest, t.shape.length = 4 ∧ ∃ n, t.dim 3 = some n ∧ n ≠ 0) →
      (∀ t ∈ rest,
        t.dim 0 = a0.dim 0 ∧ t.dim 1 = a0.dim 1 ∧ t.dim 2 = a0.dim 2) →
      ∃ r, convLinear (a0 :: rest) fs od bias bi ki kv bv = .ok r
        ∧ r.res.shape = [a0.dim 0, a0.dim 1, a0.dim 2, some od]
        ∧ r.res.shape.length = 4) := by
  constructor
  · intro args fs od bias bi ki kv bv hbad
    obtain ⟨t, ht, hb⟩ := hbad
    obtain ⟨msg, hmsg⟩ := totalArgDepth_error_of_bad (args.map Tensor.shape)
      ⟨t.shape, List.mem_map_of_mem Tensor.shape ht, hb⟩
    refine ⟨msg, ?_⟩
    unfold convLinear
    rw [hmsg]
    rfl
  · intro a0 rest fs od bias bi ki kv bv hgood hdims
    obtain ⟨r, hr, hsh⟩ :=
      convLinear_ok_of_good a0 rest fs od bias bi ki kv bv hgood hdims
    exact ⟨r, hr, hsh, by rw [hsh]; rfl⟩

/-- Witness for C7: the rank check rejects a rank-1 input, and a valid
1x1x1x1 input yields a 4D result. -/
theorem convLinear_shape_validation_witness :
    (∃ msg, convLinear [badRankTensor] (1, 1) 1 true none none
      (fun _ _ _ _ => 0) (fun _ => 0) = .error (.shapeError msg))
    ∧ (∃ r, convLinear [tfZeros 1 1 1 1] (1, 1) 1 true none none
        (fun _ _ _ _ => 0) (fun _ => 0) = .ok r
      ∧ r.res.shape.length = 4) := by
  constructor
  · exact convLinear_shape_validation.1 [badRankTensor] (1, 1) 1 true none none
      (fun _ _ _ _ => 0) (fun _ => 0)
      ⟨badRankTensor, by simp, Or.inl (by simp [badRankTensor])⟩
  · obtain ⟨r, hr, -, hlen⟩ :=
      convLinear_shape_validation.2 (tfZeros 1 1 1 1) [] (1, 1) 1 true none none
        (fun _ _ _ _ => 0) (fun _ => 0)
        (by
          intro t ht
          simp only [List.mem_singleton] at ht
          subst ht
          exact ⟨rfl, 1, rfl, one_ne_zero⟩)
        (by simp)
    exact ⟨r, hr, hlen⟩

/-- C10: in _conv_linear, when bias is requested and no bias initializer is
supplied, the bias parameter is created with the xavier initializer
substituted at the top of the function, and the later constant-zero fallback
branch is unreachable for every input. -/
theorem convLinear_bias_fallback_dead :
    ∀ (args : List Tensor) (fs : ℕ × ℕ) (od : ℕ) (bias : Bool)
      (bi ki : Option InitKind) (kv : ℕ → ℕ → ℕ → ℕ → ℝ) (bv : ℕ → ℝ)
      (r : ConvLinearResult),
      convLinear args fs od bias bi ki kv bv = .ok r →
      r.biasFallbackUsed = false
      ∧ (bias = true → bi = none → r.biasInitUsed = some InitKind.xavier) := by
  intro args fs od bias bi ki kv bv r h
  cases args with
  | nil =>
    unfold convLinear at h
    cases htd : totalArgDepth (([] : List Tensor).map Tensor.shape) with
    | error e => rw [htd] at h; simp [Bind.bind, Except.bind] at h
    | ok n => rw [htd] at h; simp [Bind.bind, Except.bind] at h
  | cons a0 rest =>
    unfold convLinear at h
    cases htd : totalArgDepth ((a0 :: rest).map Tensor.shape) with
    | error e => rw [htd] at h; simp [Bind.bind, Except.bind] at h
    | ok n =>
      rw [htd] at h
      simp only [Bind.bind, Except.bind] at h
      by_cases hlen : (a0 :: rest).length = 1
      · rw [if_pos hlen] at h
        simp only [Pure.pure, Except.pure] at h
        cases bias with
        | false =>
          rw [if_pos rfl] at h
          rw [← Except.ok.inj h]
          exact ⟨rfl, fun hb => absurd hb (by simp)⟩
        | true =>
          rw [if_neg (by simp)] at h
          rw [← Except.ok.inj h]
          cases bi with
          | none => exact ⟨rfl, fun _ _ => rfl⟩
          | some i => exact ⟨rfl, fun _ hbi => by simp at hbi⟩
      · rw [if_neg hlen] at h
        cases hcc : tfConcat3 (a0 :: rest) with
        | error e => rw [hcc] at h; simp [Bind.bind, Except.bind] at h
        | ok v =>
          rw [hcc] at h
          simp only [Bind.bind, Except.bind] at h
          cases bias with
          | false =>
            rw [if_pos rfl] at h
            rw [← Except.ok.inj h]
            exact ⟨rfl, fun hb => absurd hb (by simp)⟩
          | true =>
            rw [if_neg (by simp)] at h
            rw [← Except.ok.inj h]
            cases bi with
            | none => exact ⟨rfl, fun _ _ => rfl⟩
            | some i => exact ⟨rfl, fun _ hbi => by simp at hbi⟩

/-- Witness for C10: a concrete successful bias-carrying call with no
supplied bias initializer ends with the xavier bias initializer and the dead
fallback not taken. -/
theorem convLinear_bias_fallback_dead_witness :
    ∃ r, convLinear [tfZeros 1 1 1 1] (1, 1) 1 true none none
        (fun _ _ _ _ => 0) (fun _ => 0) = .ok r
      ∧ r.biasFallbackUsed = false
      ∧ r.biasInitUsed = some InitKind.xavier := by
  have h : convLinear [tfZeros 1 1 1 1] (1, 1) 1 true none none
      (fun _ _ _ _ => 0) (fun _ => 0) =
      .ok ⟨tfAddBias (conv2dSame (tfZeros 1 1 1 1) 1 1 1 (fun _ _ _ _ => 0))
             (fun _ => 0),
           ["weights", "bias"], InitKind.xavier, some InitKind.xavier, false⟩ := by
    rfl
  obtain ⟨h1, h2⟩ := convLinear_bias_fallback_dead _ _ _ _ _ _ _ _ _ h
  exact ⟨_, h, h1, h2 rfl rfl⟩

theorem tfSplit2_ok_of_even (t : Tensor) (n : ℕ) (h : t.dim 3 = some (2 * n)) :
    tfSplit2 t = .ok (t.slice3 0 n, t.slice3 n n) := by
  unfold tfSplit2
  rw [h]
  simp [Nat.mul_mod_right, Nat.mul_div_cancel_left]

theorem ugrnn_call_errs_after_linear (cfg : ConvGatedCellCfg)
    (kv : ℕ → ℕ → ℕ → ℕ → ℝ) (bv : ℕ → ℝ) (nrm : String → Tensor → Tensor)
    (inputs state : Tensor) (clr : ConvLinearResult)
    (hln : cfg.layer_norm = true)
    (hconv : convLinear [inputs, state] cfg.filter_size (2 * cfg.out_depth) true
      cfg.bias_initializer cfg.kernel_initializer kv bv = .ok clr) :
    ConvUGRNNCell.call cfg kv bv nrm inputs state = .error (.nameError "h_act") := by
  have hdim : clr.res.dim 3 = some (2 * cfg.out_depth) :=
    (Tensor.dim_of_shape
      (convLinear_ok_shape_head inputs [state] _ _ _ _ _ _ _ _ hconv)).2.2.2
  unfold ConvUGRNNCell.call
  rw [hconv]
  simp only [Bind.bind, Except.bind]
  rw [tfSplit2_ok_of_even clr.res cfg.out_depth hdim]
  simp [hln]

/-- C9: for every ConvUGRNNCell configured with layer_norm = true, every
step invocation fails: the candidate-activation normalization line
references the unbound name h_act, so no invocation can succeed, and on any
rank-4 inputs with valid channel dimensions (where the linear transform
itself succeeds) the failure is precisely the undefined-name error.  The
step function can therefore be total only under layer_norm = false. -/
theorem ugrnn_layer_norm_always_fails :
    ∀ (cfg : ConvGatedCellCfg) (kv : ℕ → ℕ → ℕ → ℕ → ℝ) (bv : ℕ → ℝ)
      (nrm : String → Tensor → Tensor) (inputs state : Tensor),
      cfg.layer_norm = true →
      (∃ e, ConvUGRNNCell.call cfg kv bv nrm inputs state = .error e)
      ∧ ((inputs.shape.length = 4 ∧ ∃ n, inputs.dim 3 = some n ∧ n ≠ 0) →
         (state.shape.length = 4 ∧ ∃ m, state.dim 3 = some m ∧ m ≠ 0) →
         state.dim 0 = inputs.dim 0 → state.dim 1 = inputs.dim 1 →
         state.dim 2 = inputs.dim 2 →
         ConvUGRNNCell.call cfg kv bv nrm inputs state
           = .error (.nameError "h_act")) := by
  intro cfg kv bv nrm inputs state hln
  constructor
  · cases hconv : convLinear [inputs, state] cfg.filter_size
        (2 * cfg.out_depth) true cfg.bias_initializer cfg.kernel_initializer
        kv bv with
    | error e =>
      refine ⟨e, ?_⟩
      unfold ConvUGRNNCell.call
      rw [hconv]
      simp [Bind.bind, Except.bind]
    | ok clr =>
      exact ⟨.nameError "h_act",
        ugrnn_call_errs_after_linear cfg kv bv nrm inputs state clr hln hconv⟩
  · intro hi hs hd0 hd1 hd2
    obtain ⟨clr, hconv, -⟩ := convLinear_ok_of_good inputs [state]
      cfg.filter_size (2 * cfg.out_depth) true cfg.bias_initializer
      cfg.kernel_initializer kv bv
      (by
        intro t ht
        rcases List.mem_cons.mp ht with rfl | ht
        · exact hi
        · rcases List.mem_singleton.mp ht with rfl
          exact hs)
      (by
        intro t ht
        rcases List.mem_singleton.mp ht with rfl
        exact ⟨hd0, hd1, hd2⟩)
    exact ugrnn_call_errs_after_linear cfg kv bv nrm inputs state clr hln hconv

/-- Witness for C9: a concrete layer-norm UGRNN cell on a 1x1x1x1 input and
state fails with the undefined-name error. -/
theorem ugrnn_layer_norm_always_fails_witness :
    ConvUGRNNCell.call ⟨(1, 1), (1, 1), 1, 1, none, none, true⟩
      (fun _ _ _ _ => 0) (fun _ => 0) (fun _ t => t)
      (tfZeros 1 1 1 1) (tfZeros 1 1 1 1) = .error (.nameError "h_act") := by
  exact (ugrnn_layer_norm_always_fails ⟨(1, 1), (1, 1), 1, 1, none, none, true⟩
      (fun _ _ _ _ => 0) (fun _ => 0) (fun _ t => t)
      (tfZeros 1 1 1 1) (tfZeros 1 1 1 1) rfl).2
    ⟨rfl, 1, rfl, one_ne_zero⟩ ⟨rfl, 1, rfl, one_ne_zero⟩ rfl rfl rfl

theorem tfMul_ok_compat {a b c : Tensor} (h : tfMul a b = .ok c) :
    a.shape = b.shape ∨ ∃ s, broadcastShapes a.shape b.shape = some s := by
  unfold tfMul at h
  split at h
  case isTrue hab => exact Or.inl hab
  case isFalse hab =>
    cases hb : broadcastShapes a.shape b.shape with
    | none => rw [hb] at h; simp at h
    | some s => exact Or.inr ⟨s, rfl⟩

theorem broadcastShapes_cons {a b : Option ℕ} {as bs : List (Option ℕ)}
    {s : List (Option ℕ)} (h : broadcastShapes (a :: as) (b :: bs) = some s) :
    broadcastDim a b ≠ none ∧ ∃ t, broadcastShapes as bs = some t := by
  unfold broadcastShapes at h
  cases hd : broadcastDim a b with
  | none => rw [hd] at h; simp [Bind.bind, Option.bind] at h
  | some d =>
    rw [hd] at h
    cases ht : broadcastShapes as bs with
    | none => rw [ht] at h; simp [Bind.bind, Option.bind] at h
    | some t => exact ⟨by simp [hd], t, rfl⟩

theorem broadcastDim_some_cases {m n : ℕ}
    (h : broadcastDim (some m) (some n) ≠ none) :
    m = n ∨ m = 1 ∨ n = 1 := by
  unfold broadcastDim at h
  by_cases hm : (some m : Option ℕ) = some 1
  · exact Or.inr (Or.inl (by simpa using hm))
  · rw [if_neg hm] at h
    by_cases hn : (some n : Option ℕ) = some 1
    · exact Or.inr (Or.inr (by simpa using hn))
    · rw [if_neg hn] at h
      by_cases hmn : (some m : Option ℕ) = some n
      · exact Or.inl (by simpa using hmn)
      · rw [if_neg hmn] at h
        exact absurd rfl h

theorem tfMul_ok_depth_compat {g st c : Tensor} {a b c' : Option ℕ}
    {D sd : ℕ} (hg : g.shape = [a, b, c', some D])
    (hst4 : st.shape.length = 4) (hsd : st.dim 3 = some sd)
    (h : tfMul g st = .ok c) :
    sd = D ∨ sd = 1 ∨ D = 1 := by
  obtain ⟨t0, t1, t2, t3, hts⟩ := length_four_eq hst4
  have ht3 : t3 = some sd := by
    have h3 := hsd
    rw [Tensor.dim, hts] at h3
    simpa using h3
  subst ht3
  rcases tfMul_ok_compat h with hEq | ⟨s, hs⟩
  · rw [hg, hts] at hEq
    have : some D = some sd := by
      simpa using congrArg (fun l => l.getD 3 none) hEq
    exact Or.inl (Option.some.inj this).symm
  · rw [hg, hts] at hs
    obtain ⟨-, s1, hs1⟩ := broadcastShapes_cons hs
    obtain ⟨-, s2, hs2⟩ := broadcastShapes_cons hs1
    obtain ⟨-, s3, hs3⟩ := broadcastShapes_cons hs2
    obtain ⟨hd, -⟩ := broadcastShapes_cons hs3
    rcases broadcastDim_some_cases hd with h' | h' | h'
    · exact Or.inl h'.symm
    · exact Or.inr (Or.inr h')
    · exact Or.inr (Or.inl h')

theorem irnnPrecheck_none {t : Tensor} {H W D : ℕ}
    (h : irnnPrecheck t H W D = none) :
    t.dim 1 = some H ∧ t.dim 2 = some W ∧ t.dim 3 = some D := by
  unfold irnnPrecheck at h
  split at h
  · exact absurd h (by simp)
  split at h
  · exact absurd h (by simp)
  split at h
  · exact absurd h (by simp)
  split at h
  · exact absurd h (by simp)
  split at h
  · exact absurd h (by simp)
  split at h
  · exact absurd h (by simp)
  next h1 _ h2 _ h3 =>
    exact ⟨not_not.mp h1, not_not.mp h2, not_not.mp h3⟩

theorem irnnPrecheck_some_of_len4 {t : Tensor} {H W D : ℕ} {e : TnnErr}
    (hlen : 4 ≤ t.shape.length) (h : irnnPrecheck t H W D = some e) :
    e = .shapeError "Input and output shape must match." := by
  unfold irnnPrecheck at h
  split at h
  next hc => exact absurd hc (by omega)
  split at h
  next => exact (Option.some.inj h).symm
  split at h
  next hc => exact absurd hc (by omega)
  split at h
  next => exact (Option.some.inj h).symm
  split at h
  next hc => exact absurd hc (by omega)
  split at h
  next => exact (Option.some.inj h).symm
  · exact absurd h (by simp)

theorem totalArgDepth_ok_good :
    ∀ {shapes : List (List (Option ℕ))} {m : ℕ},
      totalArgDepth shapes = .ok m →
      ∀ s ∈ shapes, s.length = 4 ∧ ∃ n, s.getD 3 none = some n ∧ n ≠ 0 := by
  intro shapes
  induction shapes with
  | nil => intro m _ s hs; simp at hs
  | cons s0 rest ih =>
    intro m h t ht
    unfold totalArgDepth at h
    split at h
    next h4 => exact absurd h (by simp)
    next h4 =>
      push_neg at h4
      split at h
      next hg => exact absurd h (by simp)
      next d hg =>
        split at h
        next hd => exact absurd h (by simp)
        next hd =>
          simp only [Bind.bind, Except.bind] at h
          cases hr : totalArgDepth rest with
          | error e => rw [hr] at h; simp at h
          | ok mr =>
            rcases List.mem_cons.mp ht with rfl | htr
            · exact ⟨h4, d, hg, hd⟩
            · exact ih hr t htr

theorem tfConcat3_ok_cond {t : Tensor} {rest : List Tensor} {u : Tensor}
    (h : tfConcat3 (t :: rest) = .ok u) :
    ∀ v ∈ rest, v.shape.length = 4 ∧ (v.dim 3).isSome = true ∧
      v.dim 0 = t.dim 0 ∧ v.dim 1 = t.dim 1 ∧ v.dim 2 = t.dim 2 := by
  rw [tfConcat3_cons] at h
  split at h
  next hc => exact hc.2.2
  · simp at h

theorem convLinear_ok_pair_facts (a0 a1 : Tensor)
    (fs : ℕ × ℕ) (od : ℕ) (bias : Bool) (bi ki : Option InitKind)
    (kv : ℕ → ℕ → ℕ → ℕ → ℝ) (bv : ℕ → ℝ) (r : ConvLinearResult)
    (h : convLinear [a0, a1] fs od bias bi ki kv bv = .ok r) :
    a1.shape.length = 4 ∧ (∃ n, a1.dim 3 = some n ∧ n ≠ 0) ∧
      a1.dim 0 = a0.dim 0 ∧ a1.dim 1 = a0.dim 1 ∧ a1.dim 2 = a0.dim 2 := by
  unfold convLinear at h
  cases htd : totalArgDepth ([a0, a1].map Tensor.shape) with
  | error e => rw [htd] at h; simp [Bind.bind, Except.bind] at h
  | ok n =>
    rw [htd] at h
    obtain ⟨hlen4, sd, hsd, hsd0⟩ :=
      totalArgDepth_ok_good htd a1.shape (by simp)
    simp only [Bind.bind, Except.bind] at h
    rw [if_neg (by simp)] at h
    cases hcc : tfConcat3 [a0, a1] with
    | error e => rw [hcc] at h; simp at h
    | ok ct =>
      obtain ⟨hv4, -, hv0, hv1, hv2⟩ := tfConcat3_ok_cond hcc a1 (by simp)
      exact ⟨hlen4, ⟨sd, hsd, hsd0⟩, hv0, hv1, hv2⟩

theorem tfMap_shape (f : ℝ → ℝ) (t : Tensor) : (tfMap f t).shape = t.shape :=
  rfl

theorem tfAddScalar_shape (t : Tensor) (s : ℝ) :
    (tfAddScalar t s).shape = t.shape :=
  rfl

theorem slice3_shape (t : Tensor) (off len : ℕ) :
    (t.slice3 off len).shape = [t.dim 0, t.dim 1, t.dim 2, some len] :=
  rfl

theorem convIntersectionGates_ok_state_depth (cfg : ConvGatedCellCfg)
    (nrm : String → Tensor → Tensor) (hnrm : ∀ s t, (nrm s t).shape = t.shape)
    (inputs state concat : Tensor) (y ns : Tensor)
    (hdim : concat.dim 3 = some (2 * cfg.out_depth + 2 * cfg.out_depth))
    (hst4 : state.shape.length = 4) (sd : ℕ) (hsd : state.dim 3 = some sd)
    (h : convIntersectionGates cfg nrm inputs state concat = .ok (y, ns)) :
    sd = cfg.out_depth ∨ sd = 1 ∨ cfg.out_depth = 1 := by
  unfold convIntersectionGates at h
  have hsplit : tfSplitSizes4 cfg.out_depth cfg.out_depth cfg.out_depth
      cfg.out_depth concat
      = .ok (concat.slice3 0 cfg.out_depth,
             concat.slice3 cfg.out_depth cfg.out_depth,
             concat.slice3 (cfg.out_depth + cfg.out_depth) cfg.out_depth,
             concat.slice3 (cfg.out_depth + cfg.out_depth + cfg.out_depth)
               cfg.out_depth) := by
    unfold tfSplitSizes4
    rw [hdim]
    simp [show 2 * cfg.out_depth + 2 * cfg.out_depth
        = cfg.out_depth + cfg.out_depth + cfg.out_depth + cfg.out_depth from by
      ring]
  rw [hsplit] at h
  simp only [Bind.bind, Except.bind] at h
  by_cases hl : cfg.layer_norm
  all_goals simp only [hl, if_true, if_false, Bool.false_eq_true] at h
  all_goals split at h
  case pos.h_1 _ heq => exact absurd h (by simp)
  case pos.h_2 s1 heq =>
    have hg : (tfMap sigmoid (tfAddScalar
        (nrm "gh_act" (concat.slice3 0 cfg.out_depth)) cfg.forget_bias)).shape
        = [concat.dim 0, concat.dim 1, concat.dim 2, some cfg.out_depth] := by
      rw [tfMap_shape, tfAddScalar_shape, hnrm, slice3_shape]
    exact tfMul_ok_depth_compat hg hst4 hsd heq
  case neg.h_1 _ heq => exact absurd h (by simp)
  case neg.h_2 s1 heq =>
    have hg : (tfMap sigmoid (tfAddScalar
        (concat.slice3 0 cfg.out_depth) cfg.forget_bias)).shape
        = [concat.dim 0, concat.dim 1, concat.dim 2, some cfg.out_depth] := by
      rw [tfMap_shape, tfAddScalar_shape, slice3_shape]
    exact tfMul_ok_depth_compat hg hst4 hsd heq

/-- C3 (amended): the Intersection-RNN step rejects, before any parameter
allocation, any input whose spatial or channel shape disagrees with the
configured (H, W, out_depth) - with the shape error when the input carries
at least four dimensions, and with the IndexError of the `as_list()[k]`
lookup on a rank-deficient input - and a successful step forces the
validated input dimensions, a state sharing the input's batch and spatial
dimensions, and a state channel depth that is broadcast-compatible with
out_depth (equal to it, or 1, or out_depth itself 1): identical state shape
is NOT required, because the engine broadcasts size-1 channel depths
through the gating products. -/
theorem convIntersection_shape_requirements :
    (∀ (cfg : ConvGatedCellCfg) (kv : ℕ → ℕ → ℕ → ℕ → ℝ) (bv : ℕ → ℝ)
        (nrm : String → Tensor → Tensor) (inputs state : Tensor),
      ¬(inputs.dim 1 = some cfg.shape.1 ∧ inputs.dim 2 = some cfg.shape.2 ∧
          inputs.dim 3 = some cfg.out_depth) →
      ∃ e, ConvIntersectionRNNCell.call cfg kv bv nrm inputs state
          = (.error e, [])
        ∧ (4 ≤ inputs.shape.length →
            e = .shapeError "Input and output shape must match."))
    ∧ (∀ (cfg : ConvGatedCellCfg) (kv : ℕ → ℕ → ℕ → ℕ → ℝ) (bv : ℕ → ℝ)
        (nrm : String → Tensor → Tensor) (inputs state y ns : Tensor)
        (allocs : List String),
      (∀ s t, (nrm s t).shape = t.shape) →
      ConvIntersectionRNNCell.call cfg kv bv nrm inputs state
        = (.ok (y, ns), allocs) →
      inputs.dim 1 = some cfg.shape.1 ∧ inputs.dim 2 = some cfg.shape.2
        ∧ inputs.dim 3 = some cfg.out_depth
        ∧ state.dim 0 = inputs.dim 0
        ∧ state.dim 1 = some cfg.shape.1 ∧ state.dim 2 = some cfg.shape.2
        ∧ ∃ sd, state.dim 3 = some sd
            ∧ (sd = cfg.out_depth ∨ sd = 1 ∨ cfg.out_depth = 1)) := by
  constructor
  · intro cfg kv bv nrm inputs state hbad
    cases hp : irnnPrecheck inputs cfg.shape.1 cfg.shape.2 cfg.out_depth with
    | none => exact absurd (irnnPrecheck_none hp) hbad
    | some e =>
      refine ⟨e, ?_, fun hlen => irnnPrecheck_some_of_len4 hlen hp⟩
      unfold ConvIntersectionRNNCell.call
      rw [hp]
  · intro cfg kv bv nrm inputs state y ns allocs hnrm h
    unfold ConvIntersectionRNNCell.call at h
    cases hp : irnnPrecheck inputs cfg.shape.1 cfg.shape.2 cfg.out_depth with
    | some e => rw [hp] at h; simp at h
    | none =>
      rw [hp] at h
      cases hconv : convLinear [inputs, state] cfg.filter_size
          (2 * cfg.out_depth + 2 * cfg.out_depth) true cfg.bias_initializer
          cfg.kernel_initializer kv bv with
      | error e => rw [hconv] at h; simp at h
      | ok clr =>
        rw [hconv] at h
        have hg : convIntersectionGates cfg nrm inputs state clr.res
            = .ok (y, ns) := congrArg Prod.fst h
        obtain ⟨h1, h2, h3⟩ := irnnPrecheck_none hp
        obtain ⟨hc0, hc1, hc2, hc3⟩ := Tensor.dim_of_shape
          (convLinear_ok_shape_head inputs [state] _ _ _ _ _ _ _ _ hconv)
        obtain ⟨hst4, ⟨sd, hsd, hsd0⟩, hd0, hd1, hd2⟩ :=
          convLinear_ok_pair_facts inputs state _ _ _ _ _ _ _ _ hconv
        exact ⟨h1, h2, h3, hd0, by rw [hd1, h1], by rw [hd2, h2],
          sd, hsd, convIntersectionGates_ok_state_depth cfg nrm hnrm inputs
            state clr.res y ns hc3 hst4 sd hsd hg⟩

/-- Witness for C3: a 1x2x1x1 input into a cell declared with H = W = 1 and
out_depth = 1 is rejected with the shape error (its rank is 4) and an empty
allocation list. -/
theorem convIntersection_shape_requirements_witness :
    (¬((tfZeros 1 2 1 1).dim 1 = some 1 ∧ (tfZeros 1 2 1 1).dim 2 = some 1 ∧
        (tfZeros 1 2 1 1).dim 3 = some 1))
    ∧ ∃ e, ConvIntersectionRNNCell.call ⟨(1, 1), (1, 1), 1, 1, none, none,
          false⟩ (fun _ _ _ _ => 0) (fun _ => 0) (fun _ t => t)
          (tfZeros 1 2 1 1) (tfZeros 1 1 1 1) = (.error e, [])
        ∧ (4 ≤ (tfZeros 1 2 1 1).shape.length →
            e = .shapeError "Input and output shape must match.") :=
  ⟨by simp [Tensor.dim, tfZeros],
   convIntersection_shape_requirements.1 _ _ _ _ _ _
     (by simp [Tensor.dim, tfZeros])⟩

/-- Counterexample to C3 as stated: with out_depth = 2, a well-shaped
1x1x1x2 input together with a 1x1x1x1 state (a shape different from the
input's) passes the whole Intersection-RNN step with no ShapeError - the
concatenation, convolution and split succeed, and the gh * state gating
product broadcasts the size-1 state depth - refuting the claim that input
and state must share an identical shape. -/
theorem convIntersection_identical_shape_cex :
    ((ConvIntersectionRNNCell.call ⟨(1, 1), (1, 1), 2, 1, none, none, false⟩
        (fun _ _ _ _ => 0) (fun _ => 0) (fun _ t => t)
        (tfZeros 1 1 1 2) (tfZeros 1 1 1 1)).1.isOk = true)
    ∧ (tfZeros 1 1 1 1).shape ≠ (tfZeros 1 1 1 2).shape :=
  ⟨rfl, by simp [tfZeros]⟩

/-- C5 counterexample: the wrapper synthesizes an input only when the inputs
argument is omitted (None).  Calling the concrete sample wrapper with the
explicit empty list invokes the harbor with zero inputs (the trace records
harborCall with numInputs = 0, not the claimed single synthesized input). -/
theorem tnn_empty_inputs_passed_through_cex :
    tnnCall sampleWrapperCfg initialTnnState (some []) (some (tfZeros 1 1 1 1))
      = .ok (tfZerosOfShape [some 1, some 1, some 1, some 1], tfZeros 1 1 1 1,
          ⟨true, some [some 1, some 1, some 1, some 1],
           some [some 1, some 1, some 1, some 1]⟩,
          [CallEvent.harborCall false 0, CallEvent.cellStep,
           CallEvent.castOutput])
    ∧ [CallEvent.harborCall false 0, CallEvent.cellStep,
        CallEvent.castOutput].head?
      ≠ some (CallEvent.harborCall false 1) := by
  exact ⟨rfl, by decide⟩

/-- C5 (amended): only an omitted (None) inputs argument makes the wrapper
synthesize exactly one input tensor of the declared harbor shape via the
configured input-initialization strategy (all zeros for the default
tf.zeros); a supplied list, the empty list included, reaches the harbor
unchanged. -/
theorem tnn_inputs_synthesized_only_when_omitted :
    ∀ (S : Type) (cfg : TnnCellCfg S) (st : TnnState) (state : Option S),
      (tnnCall cfg st none state
        = tnnCall cfg st (some [cfg.input_init cfg.harbor_shape]) state)
      ∧ resolvedInputs cfg none = [cfg.input_init cfg.harbor_shape]
      ∧ (∀ l, resolvedInputs cfg (some l) = l)
      ∧ (cfg.input_init = tfZerosOfShape →
          (cfg.input_init cfg.harbor_shape).shape = cfg.harbor_shape
          ∧ ∀ b y x d, (cfg.input_init cfg.harbor_shape).data b y x d = 0) := by
  intro S cfg st state
  refine ⟨rfl, rfl, fun l => rfl, fun hinit => ?_⟩
  rw [hinit]
  exact ⟨rfl, fun _ _ _ _ => rfl⟩

/-- Witness for the amended C5 on the concrete sample wrapper, whose
input_init is the default zero initializer. -/
theorem tnn_inputs_synthesized_only_when_omitted_witness :
    (tnnCall sampleWrapperCfg initialTnnState none none
      = tnnCall sampleWrapperCfg initialTnnState
          (some [sampleWrapperCfg.input_init sampleWrapperCfg.harbor_shape])
          none)
    ∧ sampleWrapperCfg.input_init = tfZerosOfShape
    ∧ (sampleWrapperCfg.input_init sampleWrapperCfg.harbor_shape).shape
        = sampleWrapperCfg.harbor_shape := by
  have h := tnn_inputs_synthesized_only_when_omitted Tensor sampleWrapperCfg
    initialTnnState none
  exact ⟨h.1, rfl, (h.2.2.2 rfl).1⟩

theorem runPipelineCtr_fst (steps : List PipeFn) (reuse tag : Bool)
    (out : Tensor) (inputs : List Tensor) (ctr : ℕ) :
    (runPipelineCtr steps reuse tag out inputs ctr).1
      = runPipeline steps out inputs := by
  induction steps generalizing out ctr with
  | nil => rfl
  | cons s rest ih => simp [runPipelineCtr, runPipeline, ih]

theorem runPipelineCtr_length (steps : List PipeFn) (reuse tag : Bool)
    (out : Tensor) (inputs : List Tensor) (ctr : ℕ) :
    (runPipelineCtr steps reuse tag out inputs ctr).2.length = steps.length := by
  induction steps generalizing out ctr with
  | nil => rfl
  | cons s rest ih => simp [runPipelineCtr, ih]

theorem runPipelineCtr_getD (steps : List PipeFn) (reuse tag : Bool)
    (out : Tensor) (inputs : List Tensor) (ctr k : ℕ)
    (hk : k < steps.length) :
    (runPipelineCtr steps reuse tag out inputs ctr).2.getD k CallEvent.cellStep
      = if tag then
          CallEvent.preStep (ctr + k) reuse
            ((steps.getD k (PipeFn.plain id)).isComponentConv)
        else
          CallEvent.postStep (ctr + k) reuse
            ((steps.getD k (PipeFn.plain id)).isComponentConv) := by
  induction steps generalizing out ctr k with
  | nil => simp at hk
  | cons s rest ih =>
    cases k with
    | zero => cases tag <;> simp [runPipelineCtr]
    | succ k =>
      have hk2 : k < rest.length := by simpa using hk
      have := ih (s.apply out inputs) (ctr + 1) k hk2
      have harith : ctr + 1 + k = ctr + (k + 1) := by omega
      cases tag <;>
        simpa [runPipelineCtr, List.getD_cons_succ, harith] using this

theorem runPipelineCtr_count_cellStep (steps : List PipeFn) (reuse tag : Bool)
    (out : Tensor) (inputs : List Tensor) (ctr : ℕ) :
    (runPipelineCtr steps reuse tag out inputs ctr).2.count
      CallEvent.cellStep = 0 := by
  induction steps generalizing out ctr with
  | nil => rfl
  | cons s rest ih =>
    cases tag <;> simp [runPipelineCtr, List.count_cons, ih]

theorem trace_layout_getD_pre (hd : CallEvent) (pre z post : List CallEvent)
    (k : ℕ) (hk : k < pre.length) (d : CallEvent) :
    (hd :: (pre ++ z ++ [CallEvent.cellStep] ++ post
        ++ [CallEvent.castOutput])).getD (k + 1) d = pre.getD k d := by
  simp only [List.getD_cons_succ, List.append_assoc]
  rw [List.getD_append _ _ _ _ hk]

theorem trace_layout_getD_cell (hd : CallEvent) (pre z post : List CallEvent)
    (d : CallEvent) :
    (hd :: (pre ++ z ++ [CallEvent.cellStep] ++ post
        ++ [CallEvent.castOutput])).getD (pre.length + z.length + 1) d
      = CallEvent.cellStep := by
  have h1 : pre.length + z.length + 1 = (pre.length + z.length) + 1 := rfl
  simp only [h1, List.getD_cons_succ, List.append_assoc]
  rw [List.getD_append_right _ _ _ _ (by omega)]
  rw [List.getD_append_right _ _ _ _ (by omega)]
  simp

theorem trace_layout_getD_post (hd : CallEvent) (pre z post : List CallEvent)
    (k : ℕ) (hk : k < post.length) (d : CallEvent) :
    (hd :: (pre ++ z ++ [CallEvent.cellStep] ++ post
        ++ [CallEvent.castOutput])).getD (pre.length + z.length + 2 + k) d
      = post.getD k d := by
  have h1 : pre.length + z.length + 2 + k = (pre.length + z.length + 1 + k) + 1 := by
    omega
  simp only [h1, List.getD_cons_succ, List.append_assoc]
  rw [List.getD_append_right _ _ _ _ (by omega)]
  rw [List.getD_append_right _ _ _ _ (by omega)]
  have h2 : pre.length + z.length + 1 + k - pre.length - z.length = k + 1 := by
    omega
  rw [h2]
  simp only [List.singleton_append, List.getD_cons_succ]
  rw [List.getD_append _ _ _ _ hk]

theorem trace_layout_length (hd : CallEvent) (pre z post : List CallEvent) :
    (hd :: (pre ++ z ++ [CallEvent.cellStep] ++ post
        ++ [CallEvent.castOutput])).length
      = pre.length + post.length + 3 + z.length := by
  simp
  omega

theorem trace_layout_getLast (hd : CallEvent) (pre z post : List CallEvent) :
    (hd :: (pre ++ z ++ [CallEvent.cellStep] ++ post
        ++ [CallEvent.castOutput])).getLast? = some CallEvent.castOutput := by
  rw [show hd :: (pre ++ z ++ [CallEvent.cellStep] ++ post
        ++ [CallEvent.castOutput])
      = (hd :: (pre ++ z ++ [CallEvent.cellStep] ++ post))
        ++ [CallEvent.castOutput] by simp]
  exact List.getLast?_concat _

theorem trace_layout_count (hd : CallEvent) (pre z post : List CallEvent)
    (hhd : hd ≠ CallEvent.cellStep)
    (hpre : pre.count CallEvent.cellStep = 0)
    (hz : z.count CallEvent.cellStep = 0)
    (hpost : post.count CallEvent.cellStep = 0) :
    (hd :: (pre ++ z ++ [CallEvent.cellStep] ++ post
        ++ [CallEvent.castOutput])).count CallEvent.cellStep = 1 := by
  simp [List.count_cons, List.count_append, hpre, hz, hpost, hhd]

theorem tnnCall_ok_inv {S : Type} (cfg : TnnCellCfg S) (st : TnnState)
    (inputs : Option (List Tensor)) (state : Option S)
    (out : Tensor) (ns : S) (st2 : TnnState) (evs : List CallEvent)
    (h : tnnCall cfg st inputs state = .ok (out, ns, st2, evs)) :
    ∃ (cellOut : Tensor) (stIn : S) (zEvs : List CallEvent),
      ((state = some stIn ∧ zEvs = [])
        ∨ (state = none
            ∧ stIn = cfg.cellZeroState
                ((runPipelineCtr cfg.pre_memory st.reuse true
                  (cfg.harbor (resolvedInputs cfg inputs) cfg.harbor_shape
                    st.reuse)
                  (resolvedInputs cfg inputs) 0).1.dim 0)
            ∧ zEvs = [CallEvent.zeroStateInit
                ((runPipelineCtr cfg.pre_memory st.reuse true
                  (cfg.harbor (resolvedInputs cfg inputs) cfg.harbor_shape
                    st.reuse)
                  (resolvedInputs cfg inputs) 0).1.dim 0)]))
      ∧ cfg.cellCall
          (runPipelineCtr cfg.pre_memory st.reuse true
            (cfg.harbor (resolvedInputs cfg inputs) cfg.harbor_shape st.reuse)
            (resolvedInputs cfg inputs) 0).1 stIn = .ok (cellOut, ns)
      ∧ out = cfg.castFn
          (runPipelineCtr cfg.post_memory st.reuse false cellOut
            (resolvedInputs cfg inputs) 0).1
      ∧ st2 = ⟨true, some (cfg.stateShapeOf ns), some out.shape⟩
      ∧ evs = CallEvent.harborCall st.reuse (resolvedInputs cfg inputs).length
          :: ((runPipelineCtr cfg.pre_memory st.reuse true
                (cfg.harbor (resolvedInputs cfg inputs) cfg.harbor_shape
                  st.reuse)
                (resolvedInputs cfg inputs) 0).2
              ++ zEvs ++ [CallEvent.cellStep]
              ++ (runPipelineCtr cfg.post_memory st.reuse false cellOut
                    (resolvedInputs cfg inputs) 0).2
              ++ [CallEvent.castOutput]) := by
  unfold tnnCall at h
  cases state with
  | some s =>
    simp only [Bind.bind, Except.bind] at h
    split at h
    · exact absurd h (by simp)
    · rename_i v heq
      obtain ⟨co, ns2⟩ := v
      simp only [Except.ok.injEq, Prod.mk.injEq] at h
      obtain ⟨hout, hns, hst2, hevs⟩ := h
      subst hns
      refine ⟨co, s, [], Or.inl ⟨rfl, rfl⟩, heq, hout.symm, hst2.symm ▸ ?_, ?_⟩
      · rw [← hout]
      · rw [← hevs]
        simp
  | none =>
    simp only [Bind.bind, Except.bind] at h
    split at h
    · exact absurd h (by simp)
    · rename_i v heq
      obtain ⟨co, ns2⟩ := v
      simp only [Except.ok.injEq, Prod.mk.injEq] at h
      obtain ⟨hout, hns, hst2, hevs⟩ := h
      subst hns
      refine ⟨co, _, _, Or.inr ⟨rfl, rfl, rfl⟩, heq, hout.symm, ?_, ?_⟩
      · rw [← hst2, ← hout]
      · rw [← hevs]
        simp

/-- C2: a single node-wrapper step applies the harbor to the full input
list, then every pre-memory pipeline step in list order (component_conv
steps receiving the raw inputs list), then the inner cell step exactly once,
then every post-memory step in list order under the same rule, and finally
the dtype cast; the trace of a successful call records exactly this order,
and the output value is the corresponding composition. -/
theorem tnn_call_composition_order :
    ∀ (S : Type) (cfg : TnnCellCfg S) (st : TnnState)
      (inputs : Option (List Tensor)) (state : Option S)
      (out : Tensor) (ns : S) (st2 : TnnState) (evs : List CallEvent),
      tnnCall cfg st inputs state = .ok (out, ns, st2, evs) →
      ∃ (cellOut : Tensor) (stIn : S),
        (state = some stIn ∨ state = none)
        ∧ cfg.cellCall
            (runPipeline cfg.pre_memory
              (cfg.harbor (resolvedInputs cfg inputs) cfg.harbor_shape st.reuse)
              (resolvedInputs cfg inputs)) stIn = .ok (cellOut, ns)
        ∧ out = cfg.castFn
            (runPipeline cfg.post_memory cellOut (resolvedInputs cfg inputs))
        ∧ evs.count CallEvent.cellStep = 1
        ∧ evs.head?
            = some (.harborCall st.reuse (resolvedInputs cfg inputs).length)
        ∧ evs.getLast? = some .castOutput
        ∧ evs.length = cfg.pre_memory.length + cfg.post_memory.length + 3
            + (if state.isSome then 0 else 1)
        ∧ (∀ k, k < cfg.pre_memory.length →
            evs.getD (k + 1) CallEvent.cellStep
              = CallEvent.preStep k st.reuse
                  ((cfg.pre_memory.getD k (PipeFn.plain id)).isComponentConv))
        ∧ evs.getD
            (cfg.pre_memory.length + (if state.isSome then 0 else 1) + 1)
            CallEvent.castOutput = CallEvent.cellStep
        ∧ (∀ k, k < cfg.post_memory.length →
            evs.getD (cfg.pre_memory.length + (if state.isSome then 0 else 1)
                + 2 + k) CallEvent.cellStep
              = CallEvent.postStep k st.reuse
                  ((cfg.post_memory.getD k
                    (PipeFn.plain id)).isComponentConv)) := by
  intro S cfg st inputs state out ns st2 evs h
  obtain ⟨co, stIn, zEvs, hz, hcell, hout, hst2, hevs⟩ :=
    tnnCall_ok_inv cfg st inputs state out ns st2 evs h
  have hzlen : zEvs.length = (if state.isSome then 0 else 1) := by
    rcases hz with ⟨hs, rfl⟩ | ⟨hs, -, rfl⟩ <;> simp [hs]
  have hzcount : zEvs.count CallEvent.cellStep = 0 := by
    rcases hz with ⟨-, rfl⟩ | ⟨-, -, rfl⟩ <;> simp
  subst hevs
  refine ⟨co, stIn, ?_, ?_, ?_, ?_, rfl, trace_layout_getLast _ _ _ _, ?_,
    ?_, ?_, ?_⟩
  · rcases hz with ⟨hs, -⟩ | ⟨hs, -, -⟩
    · exact Or.inl hs
    · exact Or.inr hs
  · rw [← runPipelineCtr_fst cfg.pre_memory st.reuse true
      (cfg.harbor (resolvedInputs cfg inputs) cfg.harbor_shape st.reuse)
      (resolvedInputs cfg inputs) 0]
    exact hcell
  · rw [← runPipelineCtr_fst cfg.post_memory st.reuse false co
      (resolvedInputs cfg inputs) 0]
    exact hout
  · exact trace_layout_count _ _ _ _ (by simp)
      (runPipelineCtr_count_cellStep _ _ _ _ _ _) hzcount
      (runPipelineCtr_count_cellStep _ _ _ _ _ _)
  · rw [trace_layout_length, runPipelineCtr_length, runPipelineCtr_length,
      hzlen]
  · intro k hk
    rw [trace_layout_getD_pre _ _ _ _ k
      (by rw [runPipelineCtr_length]; exact hk) _]
    rw [runPipelineCtr_getD _ _ _ _ _ _ k hk]
    simp
  · rw [show cfg.pre_memory.length + (if state.isSome then 0 else 1) + 1
        = (runPipelineCtr cfg.pre_memory st.reuse true
            (cfg.harbor (resolvedInputs cfg inputs) cfg.harbor_shape st.reuse)
            (resolvedInputs cfg inputs) 0).2.length + zEvs.length + 1 from by
      rw [runPipelineCtr_length, hzlen]]
    exact trace_layout_getD_cell _ _ _ _ _
  · intro k hk
    rw [show cfg.pre_memory.length + (if state.isSome then 0 else 1) + 2 + k
        = (runPipelineCtr cfg.pre_memory st.reuse true
            (cfg.harbor (resolvedInputs cfg inputs) cfg.harbor_shape st.reuse)
            (resolvedInputs cfg inputs) 0).2.length + zEvs.length + 2 + k from by
      rw [runPipelineCtr_length, hzlen]]
    rw [trace_layout_getD_post _ _ _ _ k
      (by rw [runPipelineCtr_length]; exact hk) _]
    rw [runPipelineCtr_getD _ _ _ _ _ _ k hk]
    simp

/-- Witness for C2 on the sample pipeline wrapper: one concrete successful
call, one cell step in its trace, and the two pre-memory steps recorded in
list order with the correct raw-inputs flags. -/
theorem tnn_call_composition_order_witness :
    tnnCall samplePipelineCfg initialTnnState none none
      = .ok (tfMap (fun v => v + 1)
               (tfZerosOfShape [some 1, some 1, some 1, some 1]),
             tfZeros 1 1 1 1,
             ⟨true, some [some 1, some 1, some 1, some 1],
              some [some 1, some 1, some 1, some 1]⟩,
             [CallEvent.harborCall false 1, CallEvent.preStep 0 false false,
              CallEvent.preStep 1 false true, CallEvent.zeroStateInit (some 1),
              CallEvent.cellStep, CallEvent.postStep 0 false false,
              CallEvent.castOutput])
    ∧ [CallEvent.harborCall false 1, CallEvent.preStep 0 false false,
        CallEvent.preStep 1 false true, CallEvent.zeroStateInit (some 1),
        CallEvent.cellStep, CallEvent.postStep 0 false false,
        CallEvent.castOutput].count CallEvent.cellStep = 1
    ∧ [CallEvent.harborCall false 1, CallEvent.preStep 0 false false,
        CallEvent.preStep 1 false true, CallEvent.zeroStateInit (some 1),
        CallEvent.cellStep, CallEvent.postStep 0 false false,
        CallEvent.castOutput].getD 1 CallEvent.cellStep
      = CallEvent.preStep 0 false false
    ∧ [CallEvent.harborCall false 1, CallEvent.preStep 0 false false,
        CallEvent.preStep 1 false true, CallEvent.zeroStateInit (some 1),
        CallEvent.cellStep, CallEvent.postStep 0 false false,
        CallEvent.castOutput].getD 2 CallEvent.cellStep
      = CallEvent.preStep 1 false true := by
  have hok : tnnCall samplePipelineCfg initialTnnState none none
      = .ok (tfMap (fun v => v + 1)
               (tfZerosOfShape [some 1, some 1, some 1, some 1]),
             tfZeros 1 1 1 1,
             ⟨true, some [some 1, some 1, some 1, some 1],
              some [some 1, some 1, some 1, some 1]⟩,
             [CallEvent.harborCall false 1, CallEvent.preStep 0 false false,
              CallEvent.preStep 1 false true, CallEvent.zeroStateInit (some 1),
              CallEvent.cellStep, CallEvent.postStep 0 false false,
              CallEvent.castOutput]) := rfl
  obtain ⟨co, stIn, -, -, -, hcount, -, -, -, hpre, -, -⟩ :=
    tnn_call_composition_order Tensor samplePipelineCfg initialTnnState
      none none _ _ _ _ hok
  refine ⟨hok, hcount, ?_, ?_⟩
  · exact hpre 0 (by simp [samplePipelineCfg])
  · exact hpre 1 (by simp [samplePipelineCfg])

theorem Tensor.dim_congr {t t2 : Tensor} (h : t.shape = t2.shape) (i : ℕ) :
    t.dim i = t2.dim i := by
  simp [Tensor.dim, h]

theorem runPipeline_shape_det (steps : List PipeFn)
    (hdet : ∀ p ∈ steps, ∀ t t2 ins ins2, t.shape = t2.shape →
      ins.map Tensor.shape = ins2.map Tensor.shape →
      (p.apply t ins).shape = (p.apply t2 ins2).shape)
    (t t2 : Tensor) (ins ins2 : List Tensor)
    (ht : t.shape = t2.shape)
    (hins : ins.map Tensor.shape = ins2.map Tensor.shape) :
    (runPipeline steps t ins).shape = (runPipeline steps t2 ins2).shape := by
  induction steps generalizing t t2 with
  | nil => exact ht
  | cons s rest ih =>
    exact ih (fun p hp => hdet p (by simp [hp]))
      (s.apply t ins) (s.apply t2 ins2)
      (hdet s (by simp) t t2 ins ins2 ht hins)

theorem runPipelineCtr_mem_reuse (steps : List PipeFn) (reuse tag : Bool)
    (out : Tensor) (inputs : List Tensor) (ctr : ℕ) :
    ∀ e ∈ (runPipelineCtr steps reuse tag out inputs ctr).2,
      eventReuse e = some reuse := by
  induction steps generalizing out ctr with
  | nil => simp [runPipelineCtr]
  | cons s rest ih =>
    intro e he
    simp only [runPipelineCtr, List.mem_cons] at he
    rcases he with rfl | he
    · cases tag <;> rfl
    · exact ih (s.apply out inputs) (ctr + 1) e he

/-- C6: a successful node-wrapper step flips the internal reuse flag to
true and caches the state and output shapes; once the flag is set, every
scope opened by a subsequent call carries reuse = true (so every parameter
lookup is a reuse, not an allocation); and, provided the injected
collaborators are shape-deterministic, a second successful call with
same-shaped inputs and same-shaped state leaves the cached
output_size / state_size unchanged. -/
theorem tnn_reuse_flip_and_size_stability :
    (∀ (S : Type) (cfg : TnnCellCfg S) (st : TnnState)
        (inputs : Option (List Tensor)) (state : Option S)
        (out : Tensor) (ns : S) (st2 : TnnState) (evs : List CallEvent),
      tnnCall cfg st inputs state = .ok (out, ns, st2, evs) →
      st2.reuse = true
        ∧ st2.state_shape = some (cfg.stateShapeOf ns)
        ∧ st2.output_shape = some out.shape
        ∧ (st.reuse = true → ∀ e ∈ evs,
            eventReuse e = some true ∨ eventReuse e = none))
    ∧ (∀ (S : Type) (cfg : TnnCellCfg S), ShapeFaithful cfg →
      ∀ (st1 : TnnState) (in1 : Option (List Tensor)) (s1 : Option S)
        (o1 : Tensor) (n1 : S) (st1' : TnnState) (e1 : List CallEvent)
        (in2 : Option (List Tensor)) (s2 : Option S)
        (o2 : Tensor) (n2 : S) (st2' : TnnState) (e2 : List CallEvent),
      tnnCall cfg st1 in1 s1 = .ok (o1, n1, st1', e1) →
      tnnCall cfg st1' in2 s2 = .ok (o2, n2, st2', e2) →
      (resolvedInputs cfg in1).map Tensor.shape
        = (resolvedInputs cfg in2).map Tensor.shape →
      stateArgShape cfg s1 = stateArgShape cfg s2 →
      st2'.state_shape = st1'.state_shape
        ∧ st2'.output_shape = st1'.output_shape) := by
  constructor
  · intro S cfg st inputs state out ns st2 evs h
    obtain ⟨co, stIn, zEvs, hz, hcell, hout, hst2, hevs⟩ :=
      tnnCall_ok_inv cfg st inputs state out ns st2 evs h
    subst hst2
    refine ⟨rfl, rfl, rfl, ?_⟩
    intro hreuse e he
    subst hevs
    simp only [List.mem_cons, List.mem_append] at he
    rcases he with rfl | ⟨⟨⟨hp | hzm⟩ | hc⟩ | hp2⟩ | hc2
    · exact Or.inl (by rw [← hreuse]; rfl)
    · exact Or.inl (by
        rw [← hreuse]
        exact runPipelineCtr_mem_reuse _ _ _ _ _ _ e hp)
    · rcases hz with ⟨-, rfl⟩ | ⟨-, -, rfl⟩
      · simp at hzm
      · rcases List.mem_singleton.mp hzm with rfl
        exact Or.inr rfl
    · rcases hc with rfl | h0
      · exact Or.inr rfl
      · simp at h0
    · exact Or.inl (by
        rw [← hreuse]
        exact runPipelineCtr_mem_reuse _ _ _ _ _ _ e hp2)
    · rcases hc2 with rfl | h0
      · exact Or.inr rfl
      · simp at h0
  · intro S cfg hsf st1 in1 s1 o1 n1 st1' e1 in2 s2 o2 n2 st2' e2 h1 h2
      hins hstate
    obtain ⟨hdetH, hdetP, hdetC, hdetCast⟩ := hsf
    obtain ⟨co1, stIn1, z1, hz1, hcell1, hout1, hst1, -⟩ :=
      tnnCall_ok_inv cfg st1 in1 s1 o1 n1 st1' e1 h1
    obtain ⟨co2, stIn2, z2, hz2, hcell2, hout2, hst2, -⟩ :=
      tnnCall_ok_inv cfg st1' in2 s2 o2 n2 st2' e2 h2
    have hdetPre : ∀ p ∈ cfg.pre_memory, ∀ t t2 ins ins2,
        t.shape = t2.shape → ins.map Tensor.shape = ins2.map Tensor.shape →
        (p.apply t ins).shape = (p.apply t2 ins2).shape :=
      fun p hp => hdetP p (by simp [hp])
    have hdetPost : ∀ p ∈ cfg.post_memory, ∀ t t2 ins ins2,
        t.shape = t2.shape → ins.map Tensor.shape = ins2.map Tensor.shape →
        (p.apply t ins).shape = (p.apply t2 ins2).shape :=
      fun p hp => hdetP p (by simp [hp])
    have hpre : (runPipelineCtr cfg.pre_memory st1.reuse true
        (cfg.harbor (resolvedInputs cfg in1) cfg.harbor_shape st1.reuse)
        (resolvedInputs cfg in1) 0).1.shape
        = (runPipelineCtr cfg.pre_memory st1'.reuse true
            (cfg.harbor (resolvedInputs cfg in2) cfg.harbor_shape st1'.reuse)
            (resolvedInputs cfg in2) 0).1.shape := by
      rw [runPipelineCtr_fst, runPipelineCtr_fst]
      exact runPipeline_shape_det cfg.pre_memory hdetPre _ _ _ _
        (hdetH _ _ _ _ hins) hins
    have hstIn : cfg.stateShapeOf stIn1 = cfg.stateShapeOf stIn2 := by
      rcases hz1 with ⟨hs1, -⟩ | ⟨hs1, hi1, -⟩ <;>
        rcases hz2 with ⟨hs2, -⟩ | ⟨hs2, hi2, -⟩
      · rw [hs1, hs2] at hstate
        simpa [stateArgShape] using hstate
      · rw [hs1, hs2] at hstate
        simp [stateArgShape] at hstate
      · rw [hs1, hs2] at hstate
        simp [stateArgShape] at hstate
      · rw [hi1, hi2, Tensor.dim_congr hpre 0]
    obtain ⟨hco, hn⟩ := hdetC _ _ _ _ _ _ _ _ hpre hstIn hcell1 hcell2
    constructor
    · rw [hst1, hst2]
      simpa using hn.symm
    · rw [hst1, hst2]
      simp only [TnnState.mk.injEq]
      rw [hout1, hout2]
      refine congrArg some (hdetCast _ _ ?_).symm
      rw [runPipelineCtr_fst, runPipelineCtr_fst]
      exact runPipeline_shape_det cfg.post_memory hdetPost _ _ _ _ hco hins

/-- Witness for C6 on the concrete sample wrapper: the first call flips the
reuse flag and caches the sizes, the collaborators are shape-deterministic,
and a second call with a same-shaped (but differently valued) input leaves
the cached sizes unchanged. -/
theorem tnn_reuse_flip_and_size_stability_witness :
    (∃ o n st2 evs, tnnCall sampleWrapperCfg initialTnnState
        (some [tfZeros 1 1 1 1]) (some (tfZeros 1 1 1 1))
        = .ok (o, n, st2, evs)
      ∧ st2.reuse = true
      ∧ st2.state_shape = some [some 1, some 1, some 1, some 1])
    ∧ ShapeFaithful sampleWrapperCfg
    ∧ (∃ st2', tnnCall sampleWrapperCfg
          ⟨true, some [some 1, some 1, some 1, some 1],
           some [some 1, some 1, some 1, some 1]⟩
          (some [tfMap (fun v => v + 1) (tfZeros 1 1 1 1)])
          (some (tfZeros 1 1 1 1))
        = .ok (tfZerosOfShape [some 1, some 1, some 1, some 1],
               tfZeros 1 1 1 1, st2',
               [CallEvent.harborCall true 1, CallEvent.cellStep,
                CallEvent.castOutput])
      ∧ st2'.state_shape = some [some 1, some 1, some 1, some 1]
      ∧ st2'.output_shape = some [some 1, some 1, some 1, some 1]) := by
  have hok1 : tnnCall sampleWrapperCfg initialTnnState
      (some [tfZeros 1 1 1 1]) (some (tfZeros 1 1 1 1))
      = .ok (tfZerosOfShape [some 1, some 1, some 1, some 1],
             tfZeros 1 1 1 1,
             ⟨true, some [some 1, some 1, some 1, some 1],
              some [some 1, some 1, some 1, some 1]⟩,
             [CallEvent.harborCall false 1, CallEvent.cellStep,
              CallEvent.castOutput]) := rfl
  have hok2 : tnnCall sampleWrapperCfg
      ⟨true, some [some 1, some 1, some 1, some 1],
       some [some 1, some 1, some 1, some 1]⟩
      (some [tfMap (fun v => v + 1) (tfZeros 1 1 1 1)])
      (some (tfZeros 1 1 1 1))
      = .ok (tfZerosOfShape [some 1, some 1, some 1, some 1],
             tfZeros 1 1 1 1,
             ⟨true, some [some 1, some 1, some 1, some 1],
              some [some 1, some 1, some 1, some 1]⟩,
             [CallEvent.harborCall true 1, CallEvent.cellStep,
              CallEvent.castOutput]) := rfl
  have hsf : ShapeFaithful sampleWrapperCfg := by
    refine ⟨fun ins ins2 r r2 h => rfl, fun p hp => absurd hp (by simp [sampleWrapperCfg]), ?_, fun t t2 h => h⟩
    intro t t2 s s2 o o2 n n2 ht hss hc1 hc2
    simp only [sampleWrapperCfg, Except.ok.injEq, Prod.mk.injEq] at hc1 hc2
    obtain ⟨rfl, rfl⟩ := hc1
    obtain ⟨rfl, rfl⟩ := hc2
    exact ⟨ht, hss⟩
  obtain ⟨hr, hshape, -, -⟩ := tnn_reuse_flip_and_size_stability.1 Tensor
    sampleWrapperCfg initialTnnState _ _ _ _ _ _ hok1
  obtain ⟨hst, hout⟩ := tnn_reuse_flip_and_size_stability.2 Tensor
    sampleWrapperCfg hsf initialTnnState _ _ _ _ _ _ _ _ _ _ _ _
    hok1 hok2 rfl rfl
  refine ⟨⟨_, _, _, _, hok1, hr, ?_⟩, hsf, ⟨_, hok2, ?_, ?_⟩⟩
  · rw [hshape]
    rfl
  · rw [hst]
  · rw [hout]

theorem tfMul_ok_of_eq {a b : Tensor} (h : a.shape = b.shape) :
    tfMul a b
      = .ok ⟨a.shape, fun i j k l => a.data i j k l * b.data i j k l⟩ := by
  unfold tfMul
  rw [if_pos h]

theorem tfAdd_ok_of_eq {a b : Tensor} (h : a.shape = b.shape) :
    tfAdd a b
      = .ok ⟨a.shape, fun i j k l => a.data i j k l + b.data i j k l⟩ := by
  unfold tfAdd
  rw [if_pos h]

theorem tfSplit4_ok_of_mul (t : Tensor) (D : ℕ) (h : t.dim 3 = some (D * 4)) :
    tfSplit4 t = .ok (t.slice3 0 D, t.slice3 D D, t.slice3 (2 * D) D,
      t.slice3 (3 * D) D) := by
  have hdiv : D * 4 / 4 = D := Nat.mul_div_cancel D (by norm_num)
  unfold tfSplit4
  rw [h]
  simp [Nat.mul_mod_left, hdiv]

theorem convLSTM_call_tuple_eval (cfg : ConvLSTMCellCfg)
    (kv : ℕ → ℕ → ℕ → ℕ → ℝ) (bv : ℕ → ℝ) (wf wi wo : ℕ → ℕ → ℕ → ℝ)
    (nrm : String → Tensor → Tensor) (inputs c h : Tensor)
    (clr : ConvLinearResult) (B H W Din : ℕ)
    (hpeep : cfg.use_peepholes = false) (hln : cfg.layer_norm = false)
    (htuple : cfg.state_is_tuple = true)
    (hi : inputs.shape = [some B, some H, some W, some Din])
    (hc : c.shape = [some B, some H, some W, some cfg.out_depth])
    (hclr : convLinear [inputs, h] cfg.filter_size (cfg.out_depth * 4) true
      cfg.bias_initializer cfg.kernel_initializer kv bv = .ok clr) :
    ConvLSTMCell.call cfg kv bv wf wi wo nrm inputs (.tuple c h)
      = .ok (lstmNewH cfg.activation cfg.forget_bias cfg.out_depth clr.res c,
             .tuple
               (lstmNewC cfg.activation cfg.forget_bias cfg.out_depth clr.res c)
               (lstmNewH cfg.activation cfg.forget_bias cfg.out_depth
                 clr.res c)) := by
  obtain ⟨hdi0, hdi1, hdi2, hdi3⟩ := Tensor.dim_of_shape hi
  obtain ⟨hr0, hr1, hr2, hr3⟩ := Tensor.dim_of_shape
    (convLinear_ok_shape_head inputs [h] _ _ _ _ _ _ _ _ hclr)
  have hsliceShape : ∀ off : ℕ,
      (clr.res.slice3 off cfg.out_depth).shape
        = [some B, some H, some W, some cfg.out_depth] := by
    intro off
    rw [slice3_shape, hr0, hr1, hr2, hdi0, hdi1, hdi2]
  have hmul1 : c.shape = (tfMap sigmoid (tfAddScalar
      (clr.res.slice3 (2 * cfg.out_depth) cfg.out_depth)
      cfg.forget_bias)).shape := by
    rw [hc, tfMap_shape, tfAddScalar_shape, hsliceShape]
  have hmul2 : (tfMap sigmoid (clr.res.slice3 0 cfg.out_depth)).shape
      = (tfMap cfg.activation
          (clr.res.slice3 cfg.out_depth cfg.out_depth)).shape := by
    rw [tfMap_shape, tfMap_shape, hsliceShape, hsliceShape]
  unfold ConvLSTMCell.call
  rw [htuple]
  simp only [Bind.bind, Except.bind, if_true]
  rw [hclr]
  simp only [Bind.bind, Except.bind]
  rw [tfSplit4_ok_of_mul clr.res cfg.out_depth hr3]
  simp only [hln, Bool.false_eq_true, if_false]
  rw [hpeep]
  simp only [Bool.false_eq_true, if_false]
  rw [tfMul_ok_of_eq hmul1]
  simp only [Bind.bind, Except.bind]
  rw [tfMul_ok_of_eq hmul2]
  simp only [Bind.bind, Except.bind]
  rw [tfAdd_ok_of_eq (show
    (⟨c.shape, fun i j k l => c.data i j k l
        * (tfMap sigmoid (tfAddScalar
            (clr.res.slice3 (2 * cfg.out_depth) cfg.out_depth)
            cfg.forget_bias)).data i j k l⟩ : Tensor).shape
      = (⟨(tfMap sigmoid (clr.res.slice3 0 cfg.out_depth)).shape,
          fun i j k l =>
            (tfMap sigmoid (clr.res.slice3 0 cfg.out_depth)).data i j k l
            * (tfMap cfg.activation
                (clr.res.slice3 cfg.out_depth cfg.out_depth)).data i j k l⟩ :
          Tensor).shape from by
    show c.shape = (tfMap sigmoid (clr.res.slice3 0 cfg.out_depth)).shape
    rw [hc, tfMap_shape, hsliceShape])]
  simp only [Bind.bind, Except.bind]
  rw [tfMul_ok_of_eq (show
    (tfMap cfg.activation (⟨c.shape, fun i j k l =>
        c.data i j k l
          * (tfMap sigmoid (tfAddScalar
              (clr.res.slice3 (2 * cfg.out_depth) cfg.out_depth)
              cfg.forget_bias)).data i j k l
        + (tfMap sigmoid (clr.res.slice3 0 cfg.out_depth)).data i j k l
          * (tfMap cfg.activation
              (clr.res.slice3 cfg.out_depth cfg.out_depth)).data i j k l⟩ :
        Tensor)).shape
      = (tfMap sigmoid
          (clr.res.slice3 (3 * cfg.out_depth) cfg.out_depth)).shape from by
    show c.shape
      = (tfMap sigmoid (clr.res.slice3 (3 * cfg.out_depth)
          cfg.out_depth)).shape
    rw [hc, tfMap_shape, hsliceShape])]
  simp only [Bind.bind, Except.bind]
  rfl

theorem convLSTM_call_concat_eval (cfg : ConvLSTMCellCfg)
    (kv : ℕ → ℕ → ℕ → ℕ → ℝ) (bv : ℕ → ℝ) (wf wi wo : ℕ → ℕ → ℕ → ℝ)
    (nrm : String → Tensor → Tensor) (inputs s : Tensor)
    (clr : ConvLinearResult) (B H W Din : ℕ)
    (hpeep : cfg.use_peepholes = false) (hln : cfg.layer_norm = false)
    (htuple : cfg.state_is_tuple = false)
    (hi : inputs.shape = [some B, some H, some W, some Din])
    (hs : s.shape = [some B, some H, some W, some (2 * cfg.out_depth)])
    (hclr : convLinear [inputs, s.slice3 cfg.out_depth cfg.out_depth]
      cfg.filter_size (cfg.out_depth * 4) true cfg.bias_initializer
      cfg.kernel_initializer kv bv = .ok clr) :
    ConvLSTMCell.call cfg kv bv wf wi wo nrm inputs (.concat s)
      = .ok (lstmNewH cfg.activation cfg.forget_bias cfg.out_depth clr.res
               (s.slice3 0 cfg.out_depth),
             .concat ⟨[s.dim 0, s.dim 1, s.dim 2,
                 some (cfg.out_depth + (cfg.out_depth + 0))],
               concatData
                 [lstmNewC cfg.activation cfg.forget_bias cfg.out_depth
                    clr.res (s.slice3 0 cfg.out_depth),
                  lstmNewH cfg.activation cfg.forget_bias cfg.out_depth
                    clr.res (s.slice3 0 cfg.out_depth)]⟩) := by
  obtain ⟨hdi0, hdi1, hdi2, hdi3⟩ := Tensor.dim_of_shape hi
  obtain ⟨hds0, hds1, hds2, hds3⟩ := Tensor.dim_of_shape hs
  obtain ⟨hr0, hr1, hr2, hr3⟩ := Tensor.dim_of_shape
    (convLinear_ok_shape_head inputs [s.slice3 cfg.out_depth cfg.out_depth]
      _ _ _ _ _ _ _ _ hclr)
  have hsliceShape : ∀ off : ℕ,
      (clr.res.slice3 off cfg.out_depth).shape
        = [some B, some H, some W, some cfg.out_depth] := by
    intro off
    rw [slice3_shape, hr0, hr1, hr2, hdi0, hdi1, hdi2]
  have hcshape : (s.slice3 0 cfg.out_depth).shape
      = [some B, some H, some W, some cfg.out_depth] := by
    rw [slice3_shape, hds0, hds1, hds2]
  have hmul1 : (s.slice3 0 cfg.out_depth).shape
      = (tfMap sigmoid (tfAddScalar
          (clr.res.slice3 (2 * cfg.out_depth) cfg.out_depth)
          cfg.forget_bias)).shape := by
    rw [hcshape, tfMap_shape, tfAddScalar_shape, hsliceShape]
  have hmul2 : (tfMap sigmoid (clr.res.slice3 0 cfg.out_depth)).shape
      = (tfMap cfg.activation
          (clr.res.slice3 cfg.out_depth cfg.out_depth)).shape := by
    rw [tfMap_shape, tfMap_shape, hsliceShape, hsliceShape]
  unfold ConvLSTMCell.call
  rw [htuple]
  simp only [Bool.false_eq_true, if_false, Bind.bind, Except.bind]
  rw [tfSplit2_ok_of_even s cfg.out_depth hds3]
  simp only [Bind.bind, Except.bind]
  rw [hclr]
  simp only [Bind.bind, Except.bind]
  rw [tfSplit4_ok_of_mul clr.res cfg.out_depth hr3]
  simp only [hln, Bool.false_eq_true, if_false]
  rw [hpeep]
  simp only [Bool.false_eq_true, if_false]
  rw [tfMul_ok_of_eq hmul1]
  simp only [Bind.bind, Except.bind]
  rw [tfMul_ok_of_eq hmul2]
  simp only [Bind.bind, Except.bind]
  rw [tfAdd_ok_of_eq (show
    (⟨(s.slice3 0 cfg.out_depth).shape, fun i j k l =>
        (s.slice3 0 cfg.out_depth).data i j k l
        * (tfMap sigmoid (tfAddScalar
            (clr.res.slice3 (2 * cfg.out_depth) cfg.out_depth)
            cfg.forget_bias)).data i j k l⟩ : Tensor).shape
      = (⟨(tfMap sigmoid (clr.res.slice3 0 cfg.out_depth)).shape,
          fun i j k l =>
            (tfMap sigmoid (clr.res.slice3 0 cfg.out_depth)).data i j k l
            * (tfMap cfg.activation
                (clr.res.slice3 cfg.out_depth cfg.out_depth)).data i j k l⟩ :
          Tensor).shape from by
    show (s.slice3 0 cfg.out_depth).shape
      = (tfMap sigmoid (clr.res.slice3 0 cfg.out_depth)).shape
    rw [hcshape, tfMap_shape, hsliceShape])]
  simp only [Bind.bind, Except.bind]
  rw [tfMul_ok_of_eq (show
    (tfMap cfg.activation (⟨(s.slice3 0 cfg.out_depth).shape,
        fun i j k l =>
        (s.slice3 0 cfg.out_depth).data i j k l
          * (tfMap sigmoid (tfAddScalar
              (clr.res.slice3 (2 * cfg.out_depth) cfg.out_depth)
              cfg.forget_bias)).data i j k l
        + (tfMap sigmoid (clr.res.slice3 0 cfg.out_depth)).data i j k l
          * (tfMap cfg.activation
              (clr.res.slice3 cfg.out_depth cfg.out_depth)).data i j k l⟩ :
        Tensor)).shape
      = (tfMap sigmoid
          (clr.res.slice3 (3 * cfg.out_depth) cfg.out_depth)).shape from by
    show (s.slice3 0 cfg.out_depth).shape
      = (tfMap sigmoid (clr.res.slice3 (3 * cfg.out_depth)
          cfg.out_depth)).shape
    rw [hcshape, tfMap_shape, hsliceShape])]
  simp only [Bind.bind, Except.bind]
  rw [tfConcat3_ok_of_good _ _ ?h4 ?h3 ?hrest]
  · rfl
  case h4 => rfl
  case h3 => rfl
  case hrest =>
    intro u hu
    rcases List.mem_singleton.mp hu with rfl
    exact ⟨rfl, rfl, rfl, rfl, rfl⟩

theorem conv2dSame_zero_kernel (inp : Tensor) (fh fw od : ℕ) :
    ∀ b y x o,
      (conv2dSame inp fh fw od (fun _ _ _ _ => 0)).data b y x o = 0 := by
  intro b y x o
  simp [conv2dSame]

theorem convLinear_zero_params_data (a0 : Tensor) (rest : List Tensor)
    (fs : ℕ × ℕ) (od : ℕ) (bias : Bool) (bi ki : Option InitKind)
    (r : ConvLinearResult)
    (h : convLinear (a0 :: rest) fs od bias bi ki
      (fun _ _ _ _ => 0) (fun _ => 0) = .ok r) :
    ∀ b y x ch, r.res.data b y x ch = 0 := by
  unfold convLinear at h
  cases htd : totalArgDepth ((a0 :: rest).map Tensor.shape) with
  | error e => rw [htd] at h; simp [Bind.bind, Except.bind] at h
  | ok n =>
    rw [htd] at h
    simp only [Bind.bind, Except.bind] at h
    by_cases hlen : (a0 :: rest).length = 1
    · rw [if_pos hlen] at h
      simp only [Pure.pure, Except.pure] at h
      cases bias with
      | false =>
        rw [if_pos rfl] at h
        rw [← Except.ok.inj h]
        exact conv2dSame_zero_kernel a0 fs.1 fs.2 od
      | true =>
        rw [if_neg (by simp)] at h
        rw [← Except.ok.inj h]
        intro b y x ch
        show (conv2dSame a0 fs.1 fs.2 od fun _ _ _ _ => 0).data b y x ch
            + 0 = 0
        rw [conv2dSame_zero_kernel a0 fs.1 fs.2 od, add_zero]
    · rw [if_neg hlen] at h
      cases hcc : tfConcat3 (a0 :: rest) with
      | error e => rw [hcc] at h; simp [Bind.bind, Except.bind] at h
      | ok v =>
        rw [hcc] at h
        simp only [Bind.bind, Except.bind] at h
        cases bias with
        | false =>
          rw [if_pos rfl] at h
          rw [← Except.ok.inj h]
          exact conv2dSame_zero_kernel v fs.1 fs.2 od
        | true =>
          rw [if_neg (by simp)] at h
          rw [← Except.ok.inj h]
          intro b y x ch
          show (conv2dSame v fs.1 fs.2 od fun _ _ _ _ => 0).data b y x ch
              + 0 = 0
          rw [conv2dSame_zero_kernel v fs.1 fs.2 od, add_zero]

/-- C1: the LSTM step splits the single linear-transform output over
[input, h] into the four gates in the fixed order i, j, f, o (offsets 0, D,
2 D, 3 D of the channel axis); with peepholes and layer normalization
disabled it computes new_c = c * sigmoid(f + forget_bias)
+ sigmoid(i) * activation(j) and new_h = activation(new_c) * sigmoid(o),
returning new_h as the output in both the tuple and the concatenated state
representations; and in the zero scenario (forget_bias 1, tanh activation,
zero input, zero initial state, all linear-transform parameters zero) both
new_c and new_h are identically zero. -/
theorem convLSTM_gate_order_and_zero_scenario :
    (∀ (cfg : ConvLSTMCellCfg) (kv : ℕ → ℕ → ℕ → ℕ → ℝ) (bv : ℕ → ℝ)
        (wf wi wo : ℕ → ℕ → ℕ → ℝ) (nrm : String → Tensor → Tensor)
        (inputs c h : Tensor) (clr : ConvLinearResult) (B H W Din : ℕ),
      cfg.use_peepholes = false → cfg.layer_norm = false →
      cfg.state_is_tuple = true →
      inputs.shape = [some B, some H, some W, some Din] →
      c.shape = [some B, some H, some W, some cfg.out_depth] →
      convLinear [inputs, h] cfg.filter_size (cfg.out_depth * 4) true
        cfg.bias_initializer cfg.kernel_initializer kv bv = .ok clr →
      ConvLSTMCell.call cfg kv bv wf wi wo nrm inputs (.tuple c h)
        = .ok (lstmNewH cfg.activation cfg.forget_bias cfg.out_depth
                 clr.res c,
               .tuple (lstmNewC cfg.activation cfg.forget_bias cfg.out_depth
                        clr.res c)
                      (lstmNewH cfg.activation cfg.forget_bias cfg.out_depth
                        clr.res c))
      ∧ (∀ b y x d,
          (lstmNewC cfg.activation cfg.forget_bias cfg.out_depth
            clr.res c).data b y x d
          = c.data b y x d
              * sigmoid (clr.res.data b y x (2 * cfg.out_depth + d)
                  + cfg.forget_bias)
            + sigmoid (clr.res.data b y x d)
              * cfg.activation (clr.res.data b y x (cfg.out_depth + d)))
      ∧ (∀ b y x d,
          (lstmNewH cfg.activation cfg.forget_bias cfg.out_depth
            clr.res c).data b y x d
          = cfg.activation ((lstmNewC cfg.activation cfg.forget_bias
              cfg.out_depth clr.res c).data b y x d)
            * sigmoid (clr.res.data b y x (3 * cfg.out_depth + d))))
    ∧ (∀ (cfg : ConvLSTMCellCfg) (kv : ℕ → ℕ → ℕ → ℕ → ℝ) (bv : ℕ → ℝ)
        (wf wi wo : ℕ → ℕ → ℕ → ℝ) (nrm : String → Tensor → Tensor)
        (inputs s : Tensor) (clr : ConvLinearResult) (B H W Din : ℕ),
      cfg.use_peepholes = false → cfg.layer_norm = false →
      cfg.state_is_tuple = false →
      inputs.shape = [some B, some H, some W, some Din] →
      s.shape = [some B, some H, some W, some (2 * cfg.out_depth)] →
      convLinear [inputs, s.slice3 cfg.out_depth cfg.out_depth]
        cfg.filter_size (cfg.out_depth * 4) true cfg.bias_initializer
        cfg.kernel_initializer kv bv = .ok clr →
      ∃ cc, ConvLSTMCell.call cfg kv bv wf wi wo nrm inputs (.concat s)
          = .ok (lstmNewH cfg.activation cfg.forget_bias cfg.out_depth
                   clr.res (s.slice3 0 cfg.out_depth),
                 .concat cc)
        ∧ (∀ b y x d, d < cfg.out_depth →
            cc.data b y x d
              = (lstmNewC cfg.activation cfg.forget_bias cfg.out_depth
                  clr.res (s.slice3 0 cfg.out_depth)).data b y x d)
        ∧ (∀ b y x d, d < cfg.out_depth →
            cc.data b y x (cfg.out_depth + d)
              = (lstmNewH cfg.activation cfg.forget_bias cfg.out_depth
                  clr.res (s.slice3 0 cfg.out_depth)).data b y x d))
    ∧ (∀ (cfg : ConvLSTMCellCfg) (wf wi wo : ℕ → ℕ → ℕ → ℝ)
        (nrm : String → Tensor → Tensor) (B H W D Din : ℕ),
      cfg.use_peepholes = false → cfg.layer_norm = false →
      cfg.forget_bias = 1 → cfg.activation = Real.tanh →
      cfg.shape = (H, W) → cfg.out_depth = D → D ≠ 0 → Din ≠ 0 →
      (cfg.state_is_tuple = true →
        ∃ nc nh, ConvLSTMCell.call cfg (fun _ _ _ _ => 0) (fun _ => 0)
            wf wi wo nrm (tfZeros B H W Din) (ConvLSTMCell.zero_state cfg B)
          = .ok (nh, .tuple nc nh)
          ∧ (∀ b y x d, nc.data b y x d = 0)
          ∧ (∀ b y x d, nh.data b y x d = 0))
      ∧ (cfg.state_is_tuple = false →
        ∃ nh cc, ConvLSTMCell.call cfg (fun _ _ _ _ => 0) (fun _ => 0)
            wf wi wo nrm (tfZeros B H W Din) (ConvLSTMCell.zero_state cfg B)
          = .ok (nh, .concat cc)
          ∧ (∀ b y x d, nh.data b y x d = 0)
          ∧ (∀ b y x d, d < 2 * cfg.out_depth → cc.data b y x d = 0))) := by
  refine ⟨?_, ?_, ?_⟩
  · intro cfg kv bv wf wi wo nrm inputs c h clr B H W Din hpeep hln htuple
      hi hc hclr
    refine ⟨convLSTM_call_tuple_eval cfg kv bv wf wi wo nrm inputs c h clr
      B H W Din hpeep hln htuple hi hc hclr, ?_, ?_⟩
    · intro b y x d
      simp [lstmNewC]
    · intro b y x d
      simp [lstmNewH]
  · intro cfg kv bv wf wi wo nrm inputs s clr B H W Din hpeep hln htuple
      hi hs hclr
    refine ⟨_, convLSTM_call_concat_eval cfg kv bv wf wi wo nrm inputs s clr
      B H W Din hpeep hln htuple hi hs hclr, ?_, ?_⟩
    · intro b y x d hd
      have hdtC : (((lstmNewC cfg.activation cfg.forget_bias cfg.out_depth
          clr.res (s.slice3 0 cfg.out_depth)).dim 3).getD 0) = cfg.out_depth :=
        rfl
      show concatData [lstmNewC cfg.activation cfg.forget_bias cfg.out_depth
          clr.res (s.slice3 0 cfg.out_depth),
        lstmNewH cfg.activation cfg.forget_bias cfg.out_depth clr.res
          (s.slice3 0 cfg.out_depth)] b y x d = _
      simp only [concatData]
      rw [if_pos (by rw [hdtC]; exact hd)]
    · intro b y x d hd
      have hdtC : (((lstmNewC cfg.activation cfg.forget_bias cfg.out_depth
          clr.res (s.slice3 0 cfg.out_depth)).dim 3).getD 0) = cfg.out_depth :=
        rfl
      have hdtH : (((lstmNewH cfg.activation cfg.forget_bias cfg.out_depth
          clr.res (s.slice3 0 cfg.out_depth)).dim 3).getD 0) = cfg.out_depth :=
        rfl
      show concatData [lstmNewC cfg.activation cfg.forget_bias cfg.out_depth
          clr.res (s.slice3 0 cfg.out_depth),
        lstmNewH cfg.activation cfg.forget_bias cfg.out_depth clr.res
          (s.slice3 0 cfg.out_depth)] b y x (cfg.out_depth + d) = _
      simp only [concatData]
      rw [if_neg (by rw [hdtC]; omega)]
      rw [hdtC, Nat.add_sub_cancel_left]
      rw [if_pos (by rw [hdtH]; exact hd)]
  · intro cfg wf wi wo nrm B H W D Din hpeep hln hfb hact hsh hD hDnz hDinnz
    subst hD
    constructor
    · intro htuple
      have hz : ConvLSTMCell.zero_state cfg B
          = .tuple (tfZeros B H W cfg.out_depth)
                   (tfZeros B H W cfg.out_depth) := by
        simp [ConvLSTMCell.zero_state, htuple, hsh]
      obtain ⟨clr, hclr, -⟩ := convLinear_ok_of_good (tfZeros B H W Din)
        [tfZeros B H W cfg.out_depth] cfg.filter_size (cfg.out_depth * 4)
        true cfg.bias_initializer cfg.kernel_initializer
        (fun _ _ _ _ => 0) (fun _ => 0)
        (by
          intro t ht
          rcases List.mem_cons.mp ht with rfl | ht
          · exact ⟨rfl, Din, rfl, hDinnz⟩
          · rcases List.mem_singleton.mp ht with rfl
            exact ⟨rfl, cfg.out_depth, rfl, hDnz⟩)
        (by
          intro t ht
          rcases List.mem_singleton.mp ht with rfl
          exact ⟨rfl, rfl, rfl⟩)
      have heval := convLSTM_call_tuple_eval cfg (fun _ _ _ _ => 0)
        (fun _ => 0) wf wi wo nrm (tfZeros B H W Din)
        (tfZeros B H W cfg.out_depth) (tfZeros B H W cfg.out_depth) clr
        B H W Din hpeep hln htuple rfl rfl hclr
      have hpre := convLinear_zero_params_data _ _ _ _ _ _ _ _ hclr
      rw [hz]
      refine ⟨_, _, heval, ?_, ?_⟩
      · intro b y x d
        simp [lstmNewC, hpre, hact, tfZeros, Real.tanh_zero]
      · intro b y x d
        simp [lstmNewH, lstmNewC, hpre, hact, tfZeros, Real.tanh_zero]
    · intro htuple
      have hz : ConvLSTMCell.zero_state cfg B
          = .concat (tfZeros B H W (cfg.out_depth * 2)) := by
        simp [ConvLSTMCell.zero_state, htuple, hsh]
      have hsshape : (tfZeros B H W (cfg.out_depth * 2)).shape
          = [some B, some H, some W, some (2 * cfg.out_depth)] := by
        simp [tfZeros, Nat.mul_comm]
      obtain ⟨clr, hclr, -⟩ := convLinear_ok_of_good (tfZeros B H W Din)
        [(tfZeros B H W (cfg.out_depth * 2)).slice3 cfg.out_depth
          cfg.out_depth] cfg.filter_size (cfg.out_depth * 4)
        true cfg.bias_initializer cfg.kernel_initializer
        (fun _ _ _ _ => 0) (fun _ => 0)
        (by
          intro t ht
          rcases List.mem_cons.mp ht with rfl | ht
          · exact ⟨rfl, Din, rfl, hDinnz⟩
          · rcases List.mem_singleton.mp ht with rfl
            exact ⟨rfl, cfg.out_depth, rfl, hDnz⟩)
        (by
          intro t ht
          rcases List.mem_singleton.mp ht with rfl
          exact ⟨rfl, rfl, rfl⟩)
      have heval := convLSTM_call_concat_eval cfg (fun _ _ _ _ => 0)
        (fun _ => 0) wf wi wo nrm (tfZeros B H W Din)
        (tfZeros B H W (cfg.out_depth * 2)) clr B H W Din hpeep hln htuple
        rfl hsshape hclr
      have hpre := convLinear_zero_params_data _ _ _ _ _ _ _ _ hclr
      rw [hz]
      refine ⟨_, _, heval, ?_, ?_⟩
      · intro b y x d
        simp [lstmNewH, lstmNewC, hpre, hact, tfZeros, Tensor.slice3,
          Real.tanh_zero]
      · intro b y x d hd
        have hdtC : (((lstmNewC cfg.activation cfg.forget_bias cfg.out_depth
            clr.res ((tfZeros B H W (cfg.out_depth * 2)).slice3 0
              cfg.out_depth)).dim 3).getD 0) = cfg.out_depth := rfl
        have hdtH : (((lstmNewH cfg.activation cfg.forget_bias cfg.out_depth
            clr.res ((tfZeros B H W (cfg.out_depth * 2)).slice3 0
              cfg.out_depth)).dim 3).getD 0) = cfg.out_depth := rfl
        show concatData [_, _] b y x d = 0
        simp only [concatData]
        by_cases hlow : d < cfg.out_depth
        · rw [if_pos (by rw [hdtC]; exact hlow)]
          simp [lstmNewC, hpre, hact, tfZeros, Tensor.slice3, Real.tanh_zero]
        · rw [if_neg (by rw [hdtC]; exact hlow), hdtC]
          rw [if_pos (by rw [hdtH]; omega)]
          simp [lstmNewH, lstmNewC, hpre, hact, tfZeros, Tensor.slice3,
            Real.tanh_zero]

/-- Witness for C1: the zero scenario at B = H = W = out_depth = 1 in tuple
mode succeeds with new_c and new_h identically zero. -/
theorem convLSTM_gate_order_and_zero_scenario_witness :
    ∃ nc nh, ConvLSTMCell.call
        ⟨(1, 1), (1, 1), 1, false, 1, true, Real.tanh, none, none, false⟩
        (fun _ _ _ _ => 0) (fun _ => 0) (fun _ _ _ => 0) (fun _ _ _ => 0)
        (fun _ _ _ => 0) (fun _ t => t) (tfZeros 1 1 1 1)
        (ConvLSTMCell.zero_state
          ⟨(1, 1), (1, 1), 1, false, 1, true, Real.tanh, none, none, false⟩ 1)
      = .ok (nh, .tuple nc nh)
      ∧ (∀ b y x d, nc.data b y x d = 0)
      ∧ (∀ b y x d, nh.data b y x d = 0) := by
  exact (convLSTM_gate_order_and_zero_scenario.2.2
    ⟨(1, 1), (1, 1), 1, false, 1, true, Real.tanh, none, none, false⟩
    (fun _ _ _ => 0) (fun _ _ _ => 0) (fun _ _ _ => 0) (fun _ t => t)
    1 1 1 1 1 rfl rfl rfl rfl rfl rfl one_ne_zero one_ne_zero).1 rfl
